import Mathlib

/-!
Verification of the credential-lifecycle and multi-account orchestration engine
of the openai-accounts-cli repository, as a shallow embedding in Lean 4.

Modelling conventions, shared by all components:
* Go strings are Lean `String`; Go byte-wise string comparison coincides with
  the code-point lexicographic order used here because UTF-8 is order-preserving.
* `float64` percent values are modelled as `Rat`; the code only ever compares
  them, never rounds, so the order embedding is faithful (NaN is out of model).
* `time.Time` is modelled as `Option GoInstant` (`none` is Go's zero time, an
  instant carrying epoch seconds plus the sub-second nanosecond component).
  The RFC3339 persistence format has no fractional seconds, so the modelled
  codec keeps seconds and truncates nanoseconds, exactly as Go's
  `Format(time.RFC3339)` / `Parse` pair does.
* Fallible collaborators (secret store backends, repositories, the OAuth
  refresh endpoint) are modelled by explicit outcome parameters: each call site
  consults its own `Option GoErr` (`none` = success).  A failed operation
  performs no mutation (each Go backend call is a single atomic write).
* Go `error` values built with `fmt.Errorf("...: %w", e)` and `errors.Join`
  are modelled by the `GoErr` algebra below.
-/

namespace Oa

/-- Model of a Go error value: a leaf message, a wrapping
`fmt.Errorf("msg: %w", e)`, or an `errors.Join e1 e2`. -/
inductive GoErr where
  | errMsg (msg : String)
  | wrap (msg : String) (e : GoErr)
  | join (e1 e2 : GoErr)
deriving DecidableEq

instance {ε α : Type} [DecidableEq ε] [DecidableEq α] : DecidableEq (Except ε α) := fun x y =>
  match x, y with
  | Except.ok a, Except.ok b =>
    if h : a = b then isTrue (by rw [h]) else isFalse (by simp [h])
  | Except.error e, Except.error f =>
    if h : e = f then isTrue (by rw [h]) else isFalse (by simp [h])
  | Except.ok _, Except.error _ => isFalse (by intro h; cases h)
  | Except.error _, Except.ok _ => isFalse (by intro h; cases h)

/-- `errors.Join(acc, e)` where `acc` may still be nil. -/
def joinOpt (acc : Option GoErr) (e : GoErr) : GoErr :=
  match acc with
  | none => e
  | some a => GoErr.join a e

/-- Characters treated as white space by Go's `strings.TrimSpace` in the
Latin-1 range (all inputs appearing in the claims are ASCII). -/
def isGoSpace (c : Char) : Bool :=
  c.toNat == 32 || c.toNat == 9 || c.toNat == 10 || c.toNat == 11 ||
  c.toNat == 12 || c.toNat == 13 || c.toNat == 133 || c.toNat == 160

/-- Drop leading and trailing white space from a character list. -/
def trimChars (l : List Char) : List Char :=
  ((l.dropWhile isGoSpace).reverse.dropWhile isGoSpace).reverse

/-- Go `strings.TrimSpace`. -/
def goTrimSpace (s : String) : String := String.mk (trimChars s.data)

/-- One instant of Go `time.Time`: whole seconds since the epoch plus the
sub-second nanosecond component (which `time.Now` populates; Go keeps
`0 ≤ nsec < 10^9` — no claim needs the bound, so it is left implicit). -/
structure GoInstant where
  sec : Int
  nsec : Nat
deriving DecidableEq

/-- Go `time.Time`: `none` is the zero time. -/
abbrev GoTime := Option GoInstant

/-- domain.AccountLimitSnapshot. -/
structure AccountLimitSnapshot where
  percent : Rat
  resetsAt : GoTime
  capturedAt : GoTime
deriving DecidableEq

/-- domain.AccountLimitSnapshots (`nil` pointers are `none`). -/
structure AccountLimitSnapshots where
  daily : Option AccountLimitSnapshot
  weekly : Option AccountLimitSnapshot
deriving DecidableEq

/-- domain.AccountMetadata. -/
structure AccountMetadata where
  provider : String
  model : String
  secretRef : String
  planType : String
deriving DecidableEq

/-- domain.Auth (`AuthMethod` is a string type in Go). -/
structure Auth where
  method : String
  secretRef : String
deriving DecidableEq

/-- domain.Usage. -/
structure Usage where
  inputTokens : Int
  outputTokens : Int
  cachedInputTokens : Int
deriving DecidableEq

/-- domain.Account (the version the credential-lifecycle service and the
TOML round-trip code under verification operate on). -/
structure Account where
  id : String
  name : String
  metadata : AccountMetadata
  auth : Auth
  usage : Usage
  limits : AccountLimitSnapshots
deriving DecidableEq

/-- The zero value of domain.Account apart from its ID and name, as produced
by Go when only those fields are set in a composite literal. -/
def zeroAccountWith (id name : String) : Account :=
  { id := id, name := name,
    metadata := ⟨"", "", "", ""⟩, auth := ⟨"", ""⟩,
    usage := ⟨0, 0, 0⟩, limits := ⟨none, none⟩ }

/-- The secret store contents: key to stored value. -/
abbrev SecretMap := String → Option String

/-- The account repository contents: account ID to record. -/
abbrev AccountMap := String → Option Account

def updSecret (m : SecretMap) (k : String) (v : Option String) : SecretMap :=
  fun k' => if k' = k then v else m k'

def updAccount (m : AccountMap) (k : String) (v : Option Account) : AccountMap :=
  fun k' => if k' = k then v else m k'

/-- Combined state of the two stores the SetAuth saga writes to. -/
structure SagaState where
  accounts : AccountMap
  secrets : SecretMap

/-- Failure schedule for one `SetAuth` run.  Each fallible call site of the
source consults its own field; `none` means the call succeeds.  Every store
key is deleted at most once per run, so one outcome per key is fully general. -/
structure SetAuthFaults where
  getErr : Option GoErr
  putErr : Option GoErr
  saveErr : Option GoErr
  deleteErr : String → Option GoErr
  restoreSaveErr : Option GoErr

/-- application.uniqueSecretRefs: distinct, non-empty refs in first-seen order. -/
def uniqueSecretRefs (refs : List String) : List String :=
  refs.foldl (fun acc r => if r = "" then acc else if r ∈ acc then acc else acc ++ [r]) []

/-- application.remainingSecretRefs: the suffix from the first occurrence of
`failed`, or `[]` when absent. -/
def remainingSecretRefs : List String → String → List String
  | [], _ => []
  | r :: rest, failed => if r = failed then r :: rest else remainingSecretRefs rest failed

/-- application.applySecretRefs. -/
def applySecretRefs (a : Account) (refs : List String) : Account :=
  let a0 := { a with metadata.secretRef := "", auth.secretRef := "" }
  let a1 :=
    match refs with
    | [] => a0
    | r0 :: _ => { a0 with metadata.secretRef := r0, auth.secretRef := r0 }
  match refs with
  | _ :: r1 :: _ => { a1 with auth.secretRef := r1 }
  | _ => a1

/-- The account `SetAuth` starts from: the stored record, or a synthesized
one named "Account <id>" when absent. -/
def loadOrSynth (st : SagaState) (id : String) : Account :=
  match st.accounts id with
  | some a => a
  | none => zeroAccountWith id ("Account " ++ id)

/-- Step 2 of `SetAuth`: the distinct non-empty previous secret references of
the account it operates on. -/
def previousRefsOf (st : SagaState) (id : String) : List String :=
  let a := loadOrSynth st id
  uniqueSecretRefs [a.metadata.secretRef, a.auth.secretRef]

/-- The distinct non-empty secret references an account record points at. -/
def accountRefs (a : Account) : List String :=
  uniqueSecretRefs [a.metadata.secretRef, a.auth.secretRef]

/-- The account the failure branch of the deletion loop restores: the original
record re-pointed at the not-yet-deleted references, with the auth method
cleared when none survive. -/
def restoreFor (originalAccount : Account) (remaining : List String) : Account :=
  let restore0 := applySecretRefs originalAccount remaining
  if remaining.isEmpty then { restore0 with auth.method := "" }
  else { restore0 with auth.method := originalAccount.auth.method }

/-- The state and accumulated rollback error after the loop failure branch
has attempted the restore save and the new-secret compensation delete. -/
def rollbackAfter (fl : SetAuthFaults) (st : SagaState)
    (restoreAccount : Account) (secretKey : String) : SagaState × Option GoErr :=
  let afterSave :=
    match fl.restoreSaveErr with
    | some re => (st, some re)
    | none =>
      ({ st with accounts := updAccount st.accounts restoreAccount.id (some restoreAccount) },
       (none : Option GoErr))
  match fl.deleteErr secretKey with
  | some de => (afterSave.1, some (joinOpt afterSave.2 de))
  | none =>
    ({ afterSave.1 with secrets := updSecret afterSave.1.secrets secretKey none },
     afterSave.2)

/-- The previous-reference deletion loop of `Service.SetAuth`
(src/unnamed/part_016 lines 63-89), including its failure compensation:
restore the account to the not-yet-deleted suffix and delete the new secret. -/
def setAuthDeleteLoop (fl : SetAuthFaults) (originalAccount : Account)
    (previousSecretRefs : List String) (secretKey : String) :
    SagaState → List String → Except GoErr Unit × SagaState
  | st, [] => (Except.ok (), st)
  | st, previousSecretRef :: rest =>
    if previousSecretRef = secretKey then
      setAuthDeleteLoop fl originalAccount previousSecretRefs secretKey st rest
    else
      match fl.deleteErr previousSecretRef with
      | none =>
        setAuthDeleteLoop fl originalAccount previousSecretRefs secretKey
          { st with secrets := updSecret st.secrets previousSecretRef none } rest
      | some e =>
        let remaining := remainingSecretRefs previousSecretRefs previousSecretRef
        let afterDel := rollbackAfter fl st (restoreFor originalAccount remaining) secretKey
        (Except.error
          (match afterDel.2 with
           | some rollbackErr =>
             GoErr.wrap "delete previous auth secret and rollback auth update"
               (GoErr.join e rollbackErr)
           | none => GoErr.wrap "delete previous auth secret" e),
         afterDel.1)

/-- The saga state right after step 3 of `SetAuth` stored the new secret. -/
def setAuthPutState (st : SagaState) (secretKey secretValue : String) : SagaState :=
  { st with secrets := updSecret st.secrets secretKey (some secretValue) }

/-- The account record step 4 of `SetAuth` persists: auth and metadata both
re-pointed at the new key. -/
def setAuthSavedAccount (st : SagaState) (id method secretKey : String) : Account :=
  { loadOrSynth st id with
    auth := Auth.mk method secretKey,
    metadata.secretRef := secretKey }

/-- The saga state right after step 4 of `SetAuth` persisted the account
(`repo.Save` upserts keyed by the record's own ID). -/
def setAuthSavedState (st : SagaState) (id method secretKey secretValue : String) : SagaState :=
  { setAuthPutState st secretKey secretValue with
    accounts := updAccount st.accounts (setAuthSavedAccount st id method secretKey).id
      (some (setAuthSavedAccount st id method secretKey)) }

/-- Service.SetAuth (src/unnamed/part_016 lines 33-92) over the saga state,
with the failure schedule `fl` deciding each collaborator call's outcome. -/
def setAuth (st : SagaState) (fl : SetAuthFaults)
    (id method secretKey secretValue : String) : Except GoErr Unit × SagaState :=
  match fl.getErr with
  | some e => (Except.error (GoErr.wrap "get account by id" e), st)
  | none =>
  match fl.putErr with
  | some e => (Except.error (GoErr.wrap "store auth secret" e), st)
  | none =>
  match fl.saveErr with
  | some e =>
    match fl.deleteErr secretKey with
    | some rollbackErr =>
      (Except.error (GoErr.wrap "save account auth and rollback stored secret"
        (GoErr.join e rollbackErr)), setAuthPutState st secretKey secretValue)
    | none =>
      (Except.error (GoErr.wrap "save account auth" e),
       { setAuthPutState st secretKey secretValue with
         secrets := updSecret (setAuthPutState st secretKey secretValue).secrets secretKey none })
  | none =>
  setAuthDeleteLoop fl (loadOrSynth st id) (previousRefsOf st id) secretKey
    (setAuthSavedState st id method secretKey secretValue) (previousRefsOf st id)

/-! ### Secret store chain (src/unnamed/part_002, package chain) -/

/-- Classification of a backend error with respect to
`errors.Is(err, context.Canceled)` / `errors.Is(err, context.DeadlineExceeded)`:
`failure` stands for any error wrapping neither sentinel. -/
inductive SecErr where
  | canceled
  | deadlineExceeded
  | failure (msg : String)
deriving DecidableEq

/-- chain.shouldSkipFallback. -/
def shouldSkipFallback : SecErr → Bool
  | SecErr.canceled => true
  | SecErr.deadlineExceeded => true
  | SecErr.failure _ => false

/-- One secret-store backend, given by the responses of its three operations
(the chain's logic only routes; backend state is outside it). -/
structure SecretBackend where
  getR : String → Except SecErr String
  putR : String → String → Option SecErr
  deleteR : String → Option SecErr

inductive BackendTag where
  | primary
  | fallback
deriving DecidableEq

/-- A call the chain issued to a backend, in order, for tracking which
backend was touched by an operation. -/
inductive StoreCall where
  | getC (b : BackendTag) (key : String)
  | putC (b : BackendTag) (key value : String)
  | deleteC (b : BackendTag) (key : String)
deriving DecidableEq

/-- An error returned by the chain: the primary's error passed through
unchanged (cancellation/deadline), or the combined error of
`fmt.Errorf("primary backend <op> failed: %w; fallback backend <op> failed:
%w", err, fallbackErr)` identifying both failures. -/
inductive ChainErr where
  | primaryOnly (e : SecErr)
  | bothFailed (op : String) (primaryErr fallbackErr : SecErr)
deriving DecidableEq

/-- chain.Store.Get. -/
def chainGet (p f : SecretBackend) (key : String) :
    Except ChainErr String × List StoreCall :=
  match p.getR key with
  | Except.ok v => (Except.ok v, [StoreCall.getC BackendTag.primary key])
  | Except.error e =>
    if shouldSkipFallback e then
      (Except.error (ChainErr.primaryOnly e), [StoreCall.getC BackendTag.primary key])
    else
      match f.getR key with
      | Except.ok v =>
        (Except.ok v,
         [StoreCall.getC BackendTag.primary key, StoreCall.getC BackendTag.fallback key])
      | Except.error fe =>
        (Except.error (ChainErr.bothFailed "get" e fe),
         [StoreCall.getC BackendTag.primary key, StoreCall.getC BackendTag.fallback key])

/-- chain.Store.Put. -/
def chainPut (p f : SecretBackend) (key value : String) :
    Option ChainErr × List StoreCall :=
  match p.putR key value with
  | none => (none, [StoreCall.putC BackendTag.primary key value])
  | some e =>
    if shouldSkipFallback e then
      (some (ChainErr.primaryOnly e), [StoreCall.putC BackendTag.primary key value])
    else
      match f.putR key value with
      | none =>
        (none,
         [StoreCall.putC BackendTag.primary key value,
          StoreCall.putC BackendTag.fallback key value])
      | some fe =>
        (some (ChainErr.bothFailed "put" e fe),
         [StoreCall.putC BackendTag.primary key value,
          StoreCall.putC BackendTag.fallback key value])

/-- chain.Store.Delete. -/
def chainDelete (p f : SecretBackend) (key : String) :
    Option ChainErr × List StoreCall :=
  match p.deleteR key with
  | none => (none, [StoreCall.deleteC BackendTag.primary key])
  | some e =>
    if shouldSkipFallback e then
      (some (ChainErr.primaryOnly e), [StoreCall.deleteC BackendTag.primary key])
    else
      match f.deleteR key with
      | none =>
        (none,
         [StoreCall.deleteC BackendTag.primary key, StoreCall.deleteC BackendTag.fallback key])
      | some fe =>
        (some (ChainErr.bothFailed "delete" e fe),
         [StoreCall.deleteC BackendTag.primary key, StoreCall.deleteC BackendTag.fallback key])

/-! ### Pool service (src/internal/application/pool_service.go) -/

/-- domain.Pool. -/
structure Pool where
  id : String
  name : String
  provider : String
  strategy : String
  active : Bool
  autoSyncMembers : Bool
  members : List String
  updatedAt : GoTime
deriving DecidableEq

/-- application.weeklyPercent: the weekly snapshot percent, 0 when absent. -/
def weeklyPercent (a : Account) : Rat :=
  match a.limits.weekly with
  | none => 0
  | some w => w.percent

/-- The Go map `byID` built by inserting the account list in order: a later
account with the same ID overwrites an earlier one. -/
def lastWins (accounts : List Account) (id : String) : Option Account :=
  accounts.foldl (fun acc a => if a.id = id then some a else acc) none

/-- The candidate filter of `PoolService.PickAccount`: pool members resolved
in order, kept when the account exists, its trimmed provider equals the
pool's provider, and it is not weekly-exhausted (`Percent >= 100` with a
weekly snapshot excludes). -/
def pickCandidates (pool : Pool) (accounts : List Account) : List Account :=
  pool.members.filterMap (fun member =>
    match lastWins accounts member with
    | none => none
    | some account =>
      if goTrimSpace account.metadata.provider ≠ pool.provider then none
      else
        match account.limits.weekly with
        | some w => if w.percent ≥ 100 then none else some account
        | none => some account)

/-- Strict byte-wise `<` on Go strings, as code-point lexicographic order on
the character lists (UTF-8 is order-preserving, so the two coincide). -/
def lexLtB : List Char → List Char → Bool
  | [], [] => false
  | [], _ :: _ => true
  | _ :: _, [] => false
  | a :: as, b :: bs =>
    if a.toNat < b.toNat then true
    else if b.toNat < a.toNat then false
    else lexLtB as bs

/-- Go `string <`. -/
def strLtB (s t : String) : Bool := lexLtB s.data t.data

/-- The (reflexive closure of the) sort.Slice comparator of `PickAccount`:
ascending weekly percent, ties broken by lexical account ID.  The comparator
is a total preorder whose equivalence classes are single accounts, so the
sorted arrangement is unique and any correct sort yields sort.Slice's
output. -/
def pickLe (a b : Account) : Prop :=
  weeklyPercent a < weeklyPercent b ∨
    (weeklyPercent a = weeklyPercent b ∧ (strLtB a.id b.id = true ∨ a.id = b.id))

instance pickLeDec : DecidableRel pickLe := fun a b => by
  unfold pickLe
  infer_instance

/-- The error results of `PickAccount`
(`fmt.Errorf("no eligible accounts in pool %s", poolID)`). -/
inductive PickErr where
  | noEligible (poolID : String)
deriving DecidableEq

/-- PoolService.PickAccount (src/internal/application/pool_service.go lines
84-135), given the loaded pool and listed accounts: filter, sort, return the
first as the pick and the rest as the failover list. -/
def pickAccount (pool : Pool) (accounts : List Account) :
    Except PickErr (String × List String) :=
  if (pickCandidates pool accounts).isEmpty then
    Except.error (PickErr.noEligible pool.id)
  else
    match List.insertionSort pickLe (pickCandidates pool accounts) with
    | [] => Except.error (PickErr.noEligible pool.id)
    | first :: rest => Except.ok (first.id, rest.map (fun a => a.id))

/-! ### Session continuity service
(src/internal/application/session_continuity_service.go) -/

/-- domain.MemoryPacket. -/
structure MemoryPacket where
  summary : String
  decisions : List String
  pendingTasks : List String
  lastCodeRefs : List String
  updatedAt : GoTime
deriving DecidableEq

/-- domain.SessionLedger; the Go map `AccountSessions` is modelled as an
association list (first match wins on lookup, upsert updates in place). -/
structure SessionLedger where
  logicalSessionID : String
  accountSessions : List (String × String)
  memory : MemoryPacket
deriving DecidableEq

/-- domain.PoolRuntime. -/
structure PoolRuntime where
  poolID : String
  activeAccountID : String
  lastSyncedAt : GoTime
  sessions : List (String × SessionLedger)
deriving DecidableEq

/-- Go map read `m[k]`. -/
def alookup {α : Type} : List (String × α) → String → Option α
  | [], _ => none
  | (k, v) :: rest, key => if k = key then some v else alookup rest key

/-- Go map write `m[k] = v`. -/
def aupsert {α : Type} : List (String × α) → String → α → List (String × α)
  | [], key, v => [(key, v)]
  | (k, w) :: rest, key, v =>
    if k = key then (k, v) :: rest else (k, w) :: aupsert rest key v

/-- The zero value of domain.SessionLedger, as a Go map read of a missing
logical-session key produces. -/
def zeroLedger : SessionLedger :=
  { logicalSessionID := "", accountSessions := [],
    memory := { summary := "", decisions := [], pendingTasks := [],
                lastCodeRefs := [], updatedAt := none } }

/-- The pool-runtime repository contents, keyed by pool ID. -/
abbrev RuntimeMap := String → Option PoolRuntime

def updRuntime (m : RuntimeMap) (k : String) (v : Option PoolRuntime) : RuntimeMap :=
  fun k' => if k' = k then v else m k'

/-- Failure schedule for one `GetOrAttachAccountSession` run. -/
structure ContinuityFaults where
  getErr : Option GoErr
  saveErr : Option GoErr

/-- SessionContinuityService.loadRuntime: a missing runtime is lazily
initialized for the pool. -/
def loadRuntime (rt : RuntimeMap) (fl : ContinuityFaults) (poolID : String) :
    Except GoErr PoolRuntime :=
  match fl.getErr with
  | some e => Except.error e
  | none =>
    match rt poolID with
    | some r => Except.ok r
    | none =>
      Except.ok { poolID := poolID, activeAccountID := "", lastSyncedAt := none,
                  sessions := [] }

/-- The mint-and-persist tail of `GetOrAttachAccountSession`: derive the
provider session id `"<logicalSessionID>:<accountID>"`, record the mapping,
update `ActiveAccountID`/`LastSyncedAt` and save (keyed by the runtime's own
pool ID). -/
def attachNewSession (rt : RuntimeMap) (fl : ContinuityFaults) (now : GoTime)
    (logicalSessionID accountID : String)
    (runtime : PoolRuntime) (ledger : SessionLedger) :
    Except GoErr (String × Bool) × RuntimeMap :=
  let sessionID := logicalSessionID ++ ":" ++ accountID
  let ledger2 :=
    { ledger with
      accountSessions := aupsert ledger.accountSessions accountID sessionID }
  let runtime2 :=
    { runtime with
      sessions := aupsert runtime.sessions logicalSessionID ledger2,
      activeAccountID := accountID,
      lastSyncedAt := now }
  match fl.saveErr with
  | some e => (Except.error (GoErr.wrap "save pool runtime" e), rt)
  | none => (Except.ok (sessionID, true), updRuntime rt runtime2.poolID (some runtime2))

/-- SessionContinuityService.GetOrAttachAccountSession
(src/internal/application/session_continuity_service.go lines 33-62). -/
def getOrAttachAccountSession (rt : RuntimeMap) (fl : ContinuityFaults) (now : GoTime)
    (poolID logicalSessionID accountID : String) :
    Except GoErr (String × Bool) × RuntimeMap :=
  match loadRuntime rt fl poolID with
  | Except.error e => (Except.error e, rt)
  | Except.ok runtime =>
    let ledger0 := (alookup runtime.sessions logicalSessionID).getD zeroLedger
    let ledger1 :=
      if ledger0.logicalSessionID = "" then
        { ledger0 with logicalSessionID := logicalSessionID }
      else ledger0
    match alookup ledger1.accountSessions accountID with
    | some sid =>
      if goTrimSpace sid ≠ "" then (Except.ok (sid, false), rt)
      else attachNewSession rt fl now logicalSessionID accountID runtime ledger1
    | none => attachNewSession rt fl now logicalSessionID accountID runtime ledger1

/-- The provider session id currently recorded for
`(poolID, logicalSessionID, accountID)` — the lookups the service performs. -/
def pairLookup (rt : RuntimeMap) (poolID logicalSessionID accountID : String) :
    Option String :=
  match rt poolID with
  | none => none
  | some runtime =>
    match alookup runtime.sessions logicalSessionID with
    | none => none
    | some ledger => alookup ledger.accountSessions accountID

/-! ### Logical session id derivation: SHA-1
(crypto/sha1 as used by ResolveLogicalSessionID) -/

/-- Truncation to a 32-bit word. -/
def w32 (n : Nat) : Nat := n % 4294967296

/-- Left rotation of a 32-bit word. -/
def rotl (s n : Nat) : Nat := w32 (n * 2 ^ s) + n / 2 ^ (32 - s)

/-- Bitwise complement of a 32-bit word. -/
def wnot (n : Nat) : Nat := 4294967295 - n

/-- UTF-8 encoding of one code point, as Go `[]byte(string)` produces. -/
def utf8EncodeNat (c : Nat) : List Nat :=
  if c < 128 then [c]
  else if c < 2048 then [192 + c / 64, 128 + c % 64]
  else if c < 65536 then [224 + c / 4096, 128 + (c / 64) % 64, 128 + c % 64]
  else [240 + c / 262144, 128 + (c / 4096) % 64, 128 + (c / 64) % 64, 128 + c % 64]

/-- Go `[]byte(s)`: the UTF-8 bytes of a string. -/
def utf8Bytes (s : String) : List Nat :=
  s.data.flatMap (fun c => utf8EncodeNat c.toNat)

/-- Big-endian 32-bit words from bytes. -/
def bytesToWords : List Nat → List Nat
  | b0 :: b1 :: b2 :: b3 :: rest =>
    (((b0 * 256 + b1) * 256 + b2) * 256 + b3) :: bytesToWords rest
  | _ => []

/-- SHA-1 padding: 0x80, zeros to 56 mod 64, 64-bit big-endian bit length. -/
def sha1Pad (msg : List Nat) : List Nat :=
  let len := msg.length
  let zeros := (55 + 64 - len % 64) % 64
  msg ++ [128] ++ List.replicate zeros 0 ++
    [len * 8 / 72057594037927936 % 256,
     len * 8 / 281474976710656 % 256,
     len * 8 / 1099511627776 % 256,
     len * 8 / 4294967296 % 256,
     len * 8 / 16777216 % 256,
     len * 8 / 65536 % 256,
     len * 8 / 256 % 256,
     len * 8 % 256]

/-- The 80-word SHA-1 message schedule, extending the 16 block words. -/
def sha1Schedule (ws : List Nat) : Nat → List Nat
  | 0 => ws
  | j + 1 =>
    let ws' := sha1Schedule ws j
    let k := ws'.length
    ws' ++ [rotl 1 (Nat.xor (Nat.xor (ws'.getD (k - 3) 0) (ws'.getD (k - 8) 0))
            (Nat.xor (ws'.getD (k - 14) 0) (ws'.getD (k - 16) 0)))]

/-- The five SHA-1 working registers. -/
structure Sha1State where
  a : Nat
  b : Nat
  c : Nat
  d : Nat
  e : Nat

/-- The round function: Ch, Parity, Maj, Parity over the four stages. -/
def sha1F (t b c d : Nat) : Nat :=
  if t < 20 then Nat.lor (Nat.land b c) (Nat.land (wnot b) d)
  else if t < 40 then Nat.xor (Nat.xor b c) d
  else if t < 60 then Nat.lor (Nat.lor (Nat.land b c) (Nat.land b d)) (Nat.land c d)
  else Nat.xor (Nat.xor b c) d

/-- The stage constants. -/
def sha1K (t : Nat) : Nat :=
  if t < 20 then 1518500249
  else if t < 40 then 1859775393
  else if t < 60 then 2400959708
  else 3395469782

def sha1Round (ws : List Nat) (st : Sha1State) (t : Nat) : Sha1State :=
  { a := w32 (rotl 5 st.a + sha1F t st.b st.c st.d + st.e + sha1K t + ws.getD t 0),
    b := st.a, c := rotl 30 st.b, d := st.c, e := st.d }

def sha1Rounds (ws : List Nat) (st : Sha1State) : Nat → Sha1State
  | 0 => st
  | t + 1 => sha1Round ws (sha1Rounds ws st t) t

def sha1Block (h : Sha1State) (block : List Nat) : Sha1State :=
  let ws := sha1Schedule (bytesToWords block) 64
  let st := sha1Rounds ws h 80
  { a := w32 (h.a + st.a), b := w32 (h.b + st.b), c := w32 (h.c + st.c),
    d := w32 (h.d + st.d), e := w32 (h.e + st.e) }

/-- 64-byte chunks; the fuel (the list length) bounds the recursion and is
never exhausted before the list is. -/
def chunk64F : Nat → List Nat → List (List Nat)
  | _, [] => []
  | 0, _ => []
  | f + 1, l => l.take 64 :: chunk64F f (l.drop 64)

def chunk64 (l : List Nat) : List (List Nat) := chunk64F l.length l

/-- The SHA-1 digest of a byte string, as five 32-bit words. -/
def sha1Digest (msg : List Nat) : List Nat :=
  let final := (chunk64 (sha1Pad msg)).foldl sha1Block
    { a := 1732584193, b := 4023233417, c := 2562383102,
      d := 271733878, e := 3285377520 }
  [final.a, final.b, final.c, final.d, final.e]

def hexDigit (n : Nat) : Char :=
  if n < 10 then Char.ofNat (48 + n) else Char.ofNat (87 + n)

def wordHex (n : Nat) : List Char :=
  [hexDigit (n / 268435456 % 16), hexDigit (n / 16777216 % 16),
   hexDigit (n / 1048576 % 16), hexDigit (n / 65536 % 16),
   hexDigit (n / 4096 % 16), hexDigit (n / 256 % 16),
   hexDigit (n / 16 % 16), hexDigit (n % 16)]

/-- hex.EncodeToString(sha1.Sum(msg)). -/
def sha1Hex (msg : List Nat) : String :=
  String.mk ((sha1Digest msg).flatMap wordHex)

/-- SessionContinuityService.ResolveLogicalSessionID
(src/internal/application/session_continuity_service.go lines 27-31):
the SHA-1 hex digest of `TrimSpace(workspaceRoot) + "|" + TrimSpace(windowFingerprint)`. -/
def resolveLogicalSessionID (workspaceRoot windowFingerprint : String) : String :=
  sha1Hex (utf8Bytes (goTrimSpace workspaceRoot ++ "|" ++ goTrimSpace windowFingerprint))

/-! ### TOML account schema round trip
(src/unnamed/part_016 toml section: toSchema/fromSchema, formatTime/parseTime) -/

/-- cmd.oauthTokens. -/
structure OauthTokens where
  accessToken : String
  refreshToken : String
  idToken : String
  tokenType : String
  expiresIn : Int
  expiresAt : Int
deriving DecidableEq

/-- cmd.tokenExpiringSoon: a record without a positive ExpiresAt is never
expiring; otherwise expiring iff ExpiresAt (epoch seconds) is not after
now + skew.  Times carried in nanoseconds. -/
def tokenExpiringSoon (tokens : OauthTokens) (nowNs skewNs : Int) : Bool :=
  if tokens.expiresAt ≤ 0 then false
  else tokens.expiresAt * 1000000000 ≤ nowNs + skewNs

/-- cmd.withCalculatedExpiry: `ExpiresAt = now.Add(ExpiresIn seconds).Unix()`
when ExpiresIn is positive. -/
def withCalculatedExpiry (tokens : OauthTokens) (nowNs : Int) : OauthTokens :=
  if tokens.expiresIn > 0 then
    { tokens with expiresAt := (nowNs + tokens.expiresIn * 1000000000) / 1000000000 }
  else tokens

/-- The token set the OAuth refresh endpoint returns. -/
structure RefreshedTokens where
  accessToken : String
  refreshToken : String
  idToken : String
  tokenType : String
  expiresIn : Int
deriving DecidableEq

/-- Outbound effects of one ensureFreshTokens run. -/
inductive TokenEvent where
  | refreshCall
  | putCall (key : String) (value : OauthTokens)
deriving DecidableEq

/-- authadapter.ErrRefreshTokenInvalid. -/
def errRefreshTokenInvalid : GoErr := GoErr.errMsg "invalid refresh token"

/-- proactiveRefreshSkew = 2 minutes, in nanoseconds. -/
def proactiveRefreshSkewNs : Int := 120000000000

/-- Environment of one ensureFreshTokens run: the secret store holds decoded
token records (the JSON codec is modelled as a bijection between stored
strings and records, with the decoder's non-empty access-token validation
kept explicit), plus the outcomes of the store read, the refresh HTTP call
and the store write. -/
structure TokenEnv where
  secrets : String → Option OauthTokens
  getErr : String → Option GoErr
  refreshResult : Except GoErr RefreshedTokens
  putErr : Option GoErr
  nowNs : Int

def updTok (m : String → Option OauthTokens) (k : String) (v : Option OauthTokens) :
    String → Option OauthTokens :=
  fun k' => if k' = k then v else m k'

/-- The refresh-and-persist tail of ensureFreshTokens: missing refresh token
surfaces the re-login sentinel; on refresh success a missing refresh/id token
is carried over from the stored record, the expiry recomputed, and the result
persisted under the same reference. -/
def refreshAndStore (env : TokenEnv) (secretRef : String) (storedTokens : OauthTokens) :
    Except GoErr OauthTokens × (String → Option OauthTokens) × List TokenEvent :=
  if goTrimSpace storedTokens.refreshToken = "" then
    (Except.error (GoErr.wrap "refresh_token missing" errRefreshTokenInvalid),
     env.secrets, [])
  else
    match env.refreshResult with
    | Except.error e => (Except.error e, env.secrets, [TokenEvent.refreshCall])
    | Except.ok refreshed =>
      let updated0 : OauthTokens :=
        { accessToken := refreshed.accessToken, refreshToken := refreshed.refreshToken,
          idToken := refreshed.idToken, tokenType := refreshed.tokenType,
          expiresIn := refreshed.expiresIn, expiresAt := 0 }
      let updated1 :=
        if goTrimSpace updated0.refreshToken = "" then
          { updated0 with refreshToken := storedTokens.refreshToken }
        else updated0
      let updated2 :=
        if goTrimSpace updated1.idToken = "" then
          { updated1 with idToken := storedTokens.idToken }
        else updated1
      let updated := withCalculatedExpiry updated2 env.nowNs
      match env.putErr with
      | some e =>
        (Except.error (GoErr.wrap "persist refreshed oauth tokens" e),
         env.secrets, [TokenEvent.refreshCall])
      | none =>
        (Except.ok updated, updTok env.secrets secretRef (some updated),
         [TokenEvent.refreshCall, TokenEvent.putCall secretRef updated])

/-- cmd.ensureFreshTokens (src/unnamed/part_000 lines 694-761): result, the
secret store afterwards, and the refresh/persist calls made.  The
per-reference mutex serializes runs; one run is modelled. -/
def ensureFreshTokens (env : TokenEnv) (account : Account) (existing : OauthTokens)
    (force : Bool) :
    Except GoErr OauthTokens × (String → Option OauthTokens) × List TokenEvent :=
  if goTrimSpace account.auth.secretRef = "" then
    (Except.error (GoErr.errMsg "auth secret reference is empty"), env.secrets, [])
  else
    match env.getErr (goTrimSpace account.auth.secretRef) with
    | some e =>
      (Except.error (GoErr.wrap "load auth secret for refresh" e), env.secrets, [])
    | none =>
      match env.secrets (goTrimSpace account.auth.secretRef) with
      | none =>
        (Except.error (GoErr.wrap "load auth secret for refresh"
          (GoErr.errMsg "secret not found")), env.secrets, [])
      | some storedTokens =>
        if goTrimSpace storedTokens.accessToken = "" then
          (Except.error (GoErr.errMsg "oauth tokens missing access_token"),
           env.secrets, [])
        else
          if force then
            if goTrimSpace existing.accessToken ≠ "" ∧
                goTrimSpace storedTokens.accessToken ≠ "" ∧
                goTrimSpace storedTokens.accessToken ≠ goTrimSpace existing.accessToken then
              (Except.ok storedTokens, env.secrets, [])
            else
              refreshAndStore env (goTrimSpace account.auth.secretRef) storedTokens
          else
            if tokenExpiringSoon storedTokens env.nowNs proactiveRefreshSkewNs = false then
              (Except.ok storedTokens, env.secrets, [])
            else
              refreshAndStore env (goTrimSpace account.auth.secretRef) storedTokens

/-! ### Concrete fixtures used by witnesses and counterexamples -/

/-- The spec's example pool: provider "openai", members 1..3, active. -/
def examplePool : Pool :=
  { id := "default-openai", name := "default", provider := "openai",
    strategy := "least_weekly_used", active := true, autoSyncMembers := false,
    members := ["1", "2", "3"], updatedAt := none }

/-- An openai account with a weekly snapshot at the given percent. -/
def weeklyAccount (id : String) (pct : Rat) : Account :=
  { zeroAccountWith id id with
    metadata.provider := "openai",
    limits.weekly := some { percent := pct, resetsAt := none, capturedAt := none } }

/-- The spec's example accounts: weekly percents 100, 30, 10. -/
def exampleAccounts : List Account :=
  [weeklyAccount "1" 100, weeklyAccount "2" 30, weeklyAccount "3" 10]

/-- The repo test's inactive pool: Active = false, one member "1". -/
def inactivePool : Pool :=
  { examplePool with active := false, members := ["1"] }

/-- An openai account with no limit snapshots. -/
def plainAccount (id : String) : Account :=
  { zeroAccountWith id id with metadata.provider := "openai" }

/-- The account set of the repo's inactive-pool test. -/
def inactiveAccounts : List Account := [plainAccount "1"]

/-- An active pool whose only member is weekly-exhausted. -/
def exhaustedPool : Pool := { examplePool with members := ["1"] }

def exhaustedAccounts : List Account := [weeklyAccount "1" 100]

/-- An empty pool-runtime repository. -/
def rtEmpty : RuntimeMap := fun _ => none

/-- A stored token record with no expiry metadata. -/
def storedNoExp : OauthTokens :=
  { accessToken := "at", refreshToken := "rt", idToken := "", tokenType := "Bearer",
    expiresIn := 0, expiresAt := 0 }

/-- A token environment holding `storedNoExp` under "ref", far in the future. -/
def tokenEnvNoExp : TokenEnv :=
  { secrets := fun k => if k = "ref" then some storedNoExp else none,
    getErr := fun _ => none,
    refreshResult := Except.error (GoErr.errMsg "unused"),
    putErr := none,
    nowNs := 999999999999999999 }

/-- An account authenticating through secret reference "ref". -/
def tokAccount : Account :=
  { zeroAccountWith "a1" "A" with auth := Auth.mk "chatgpt" "ref" }

/-- A backend on which every operation succeeds; Get returns "v-" ++ key. -/
def okBackend : SecretBackend :=
  { getR := fun k => Except.ok ("v-" ++ k),
    putR := fun _ _ => none,
    deleteR := fun _ => none }

/-- A backend failing every operation with a generic error. -/
def downBackend : SecretBackend :=
  { getR := fun _ => Except.error (SecErr.failure "down"),
    putR := fun _ _ => some (SecErr.failure "down"),
    deleteR := fun _ => some (SecErr.failure "down") }

/-- A backend failing every operation with a context-cancellation error. -/
def cancelBackend : SecretBackend :=
  { getR := fun _ => Except.error SecErr.canceled,
    putR := fun _ _ => some SecErr.canceled,
    deleteR := fun _ => some SecErr.canceled }

/-- An account "acc" carrying two distinct previous secret references:
metadata points at "a", auth at "b". -/
def twoRefAccount : Account :=
  { zeroAccountWith "acc" "n" with
    metadata.secretRef := "a",
    auth := Auth.mk "chatgpt" "b" }

/-- Saga state: the two-reference account is stored and both of its secret
references are live in the secret store. -/
def twoRefState : SagaState :=
  { accounts := fun k => if k = "acc" then some twoRefAccount else none,
    secrets := fun k =>
      if k = "a" then some "va" else if k = "b" then some "vb" else none }

/-- A failure schedule on which every collaborator call succeeds. -/
def cleanFaults : SetAuthFaults :=
  { getErr := none, putErr := none, saveErr := none,
    deleteErr := fun _ => none, restoreSaveErr := none }

/-- Failure schedule: only the store delete of previous reference "a" fails. -/
def delAFaults : SetAuthFaults :=
  { cleanFaults with
    deleteErr := fun k => if k = "a" then some (GoErr.errMsg "boom") else none }

/-- Failure schedule: the repository save fails, and so does the compensating
delete of the just-written new secret "n". -/
def saveAndDelFaults : SetAuthFaults :=
  { cleanFaults with
    saveErr := some (GoErr.errMsg "savefail"),
    deleteErr := fun k => if k = "n" then some (GoErr.errMsg "delfail") else none }

/-! ## Lemmas and theorems -/

theorem loadOrSynth_id (st : SagaState) (id : String)
    (hwf : ∀ a0, st.accounts id = some a0 → a0.id = id) :
    (loadOrSynth st id).id = id := by
  unfold loadOrSynth
  cases hx : st.accounts id with
  | some a => exact hwf a hx
  | none => rfl

theorem mem_uniqueSecretRefs_foldl (l : List String) :
    ∀ (acc : List String) (r : String),
      r ∈ l.foldl (fun acc r =>
        if r = "" then acc else if r ∈ acc then acc else acc ++ [r]) acc →
      r ∈ acc ∨ (r ∈ l ∧ r ≠ "") := by
  induction l with
  | nil => intro acc r h; exact Or.inl h
  | cons x xs ih =>
    intro acc r h
    simp only [List.foldl_cons] at h
    rcases ih _ r h with hacc | hxs
    · by_cases hx : x = ""
      · rw [if_pos hx] at hacc
        exact Or.inl hacc
      · rw [if_neg hx] at hacc
        by_cases hmem : x ∈ acc
        · rw [if_pos hmem] at hacc
          exact Or.inl hacc
        · rw [if_neg hmem] at hacc
          rcases List.mem_append.mp hacc with h1 | h2
          · exact Or.inl h1
          · rcases List.mem_singleton.mp h2 with rfl
            exact Or.inr ⟨List.mem_cons_self _ _, hx⟩
    · exact Or.inr ⟨List.mem_cons_of_mem _ hxs.1, hxs.2⟩

theorem mem_uniqueSecretRefs {l : List String} {r : String}
    (h : r ∈ uniqueSecretRefs l) : r ∈ l ∧ r ≠ "" := by
  rcases mem_uniqueSecretRefs_foldl l [] r h with h0 | h1
  · cases h0
  · exact h1

theorem uniqueSecretRefs_pair_same (key : String) (hkey : key ≠ "") :
    uniqueSecretRefs [key, key] = [key] := by
  simp [uniqueSecretRefs, hkey]

/-- Success characterization of the deletion loop: every reference of the
processed list other than the new key has been removed from the secret store,
and the account repository is untouched. -/
theorem setAuthDeleteLoop_ok_char (fl : SetAuthFaults) (orig : Account)
    (full : List String) (key : String) :
    ∀ (subrefs : List String) (st st' : SagaState),
      setAuthDeleteLoop fl orig full key st subrefs = (Except.ok (), st') →
      st'.accounts = st.accounts ∧
      ∀ k, st'.secrets k = if k ∈ subrefs ∧ k ≠ key then none else st.secrets k := by
  intro subrefs
  induction subrefs with
  | nil =>
    intro st st' h
    simp only [setAuthDeleteLoop, Prod.mk.injEq] at h
    rw [← h.2]
    simp
  | cons r rest ih =>
    intro st st' h
    by_cases hrk : r = key
    · rw [setAuthDeleteLoop, if_pos hrk] at h
      obtain ⟨hacc, hsec⟩ := ih st st' h
      subst hrk
      refine ⟨hacc, fun k => ?_⟩
      rw [hsec k]
      by_cases h1 : k ∈ rest ∧ k ≠ r
      · rw [if_pos h1, if_pos (And.intro (List.mem_cons_of_mem _ h1.1) h1.2)]
      · have h2 : ¬(k ∈ r :: rest ∧ k ≠ r) := by
          intro hcon
          rcases List.mem_cons.mp hcon.1 with hx | hx
          · exact hcon.2 hx
          · exact h1 (And.intro hx hcon.2)
        rw [if_neg h1, if_neg h2]
    · rw [setAuthDeleteLoop, if_neg hrk] at h
      cases hde : fl.deleteErr r with
      | some e => rw [hde] at h; cases h
      | none =>
        rw [hde] at h
        obtain ⟨hacc, hsec⟩ := ih _ st' h
        refine ⟨hacc, fun k => ?_⟩
        rw [hsec k]
        simp only [updSecret]
        by_cases h1 : k ∈ rest ∧ k ≠ key
        · rw [if_pos h1, if_pos (And.intro (List.mem_cons_of_mem _ h1.1) h1.2)]
        · rw [if_neg h1]
          by_cases h2 : k = r
          · subst h2
            rw [if_pos rfl, if_pos (And.intro (List.mem_cons_self k rest) hrk)]
          · have h3 : ¬(k ∈ r :: rest ∧ k ≠ key) := by
              intro hcon
              rcases List.mem_cons.mp hcon.1 with hx | hx
              · exact h2 hx
              · exact h1 (And.intro hx hcon.2)
            rw [if_neg h2, if_neg h3]

/-- C1.  For every `SetAuth` call that returns successfully, the resulting
account record has `Auth.SecretRef = Metadata.SecretRef = newKey`, the secret
store maps `newKey` to the new value, every previous reference of the account
that differed from `newKey` is gone from the store, and the account's
reference set is exactly `[newKey]` — one live reference.  The hypothesis
`key ≠ ""` states that the new key is an actual reference: the code itself
(`uniqueSecretRefs`) treats the empty string as "no reference". -/
theorem setAuth_success_converges_single_ref
    (st : SagaState) (fl : SetAuthFaults) (id method key value : String)
    (hkey : key ≠ "")
    (hwf : ∀ a0, st.accounts id = some a0 → a0.id = id)
    (hok : (setAuth st fl id method key value).1 = Except.ok ()) :
    ∃ a, (setAuth st fl id method key value).2.accounts id = some a ∧
      a.auth.secretRef = key ∧ a.metadata.secretRef = key ∧
      (setAuth st fl id method key value).2.secrets key = some value ∧
      (∀ r, r ∈ previousRefsOf st id → r ≠ key →
        (setAuth st fl id method key value).2.secrets r = none) ∧
      accountRefs a = [key] := by
  cases hget : fl.getErr with
  | some e => unfold setAuth at hok; rw [hget] at hok; cases hok
  | none =>
  cases hput : fl.putErr with
  | some e => unfold setAuth at hok; rw [hget, hput] at hok; cases hok
  | none =>
  cases hsave : fl.saveErr with
  | some e =>
    unfold setAuth at hok; rw [hget, hput, hsave] at hok
    cases hdel : fl.deleteErr key <;> rw [hdel] at hok <;> cases hok
  | none =>
    have heq : setAuth st fl id method key value =
        setAuthDeleteLoop fl (loadOrSynth st id) (previousRefsOf st id) key
          (setAuthSavedState st id method key value) (previousRefsOf st id) := by
      unfold setAuth; rw [hget, hput, hsave]
    rw [heq] at hok ⊢
    have hloop : setAuthDeleteLoop fl (loadOrSynth st id) (previousRefsOf st id) key
        (setAuthSavedState st id method key value) (previousRefsOf st id) =
        (Except.ok (), (setAuthDeleteLoop fl (loadOrSynth st id) (previousRefsOf st id) key
          (setAuthSavedState st id method key value) (previousRefsOf st id)).2) := by
      have heta : setAuthDeleteLoop fl (loadOrSynth st id) (previousRefsOf st id) key
          (setAuthSavedState st id method key value) (previousRefsOf st id) =
          ((setAuthDeleteLoop fl (loadOrSynth st id) (previousRefsOf st id) key
            (setAuthSavedState st id method key value) (previousRefsOf st id)).1,
           (setAuthDeleteLoop fl (loadOrSynth st id) (previousRefsOf st id) key
            (setAuthSavedState st id method key value) (previousRefsOf st id)).2) := rfl
      rw [heta, hok]
    obtain ⟨hacc, hsec⟩ := setAuthDeleteLoop_ok_char fl (loadOrSynth st id)
      (previousRefsOf st id) key (previousRefsOf st id)
      (setAuthSavedState st id method key value) _ hloop
    refine ⟨setAuthSavedAccount st id method key, ?_, rfl, rfl, ?_, ?_, ?_⟩
    · rw [hacc]
      have hid : (setAuthSavedAccount st id method key).id = id := loadOrSynth_id st id hwf
      simp [setAuthSavedState, updAccount, hid]
    · rw [hsec key]
      simp [setAuthSavedState, setAuthPutState, updSecret]
    · intro r hr hrk
      rw [hsec r, if_pos ⟨hr, hrk⟩]
    · exact uniqueSecretRefs_pair_same key hkey

/-- C1 witness: rotating account "acc" from live references "a"/"b" to new
key "n" succeeds on the all-success schedule and leaves exactly "n" live. -/
theorem setAuth_success_converges_single_ref_witness :
    ∃ a, (setAuth twoRefState cleanFaults "acc" "chatgpt" "n" "vn").2.accounts "acc" = some a ∧
      a.auth.secretRef = "n" ∧ a.metadata.secretRef = "n" ∧
      (setAuth twoRefState cleanFaults "acc" "chatgpt" "n" "vn").2.secrets "n" = some "vn" ∧
      (∀ r, r ∈ previousRefsOf twoRefState "acc" → r ≠ "n" →
        (setAuth twoRefState cleanFaults "acc" "chatgpt" "n" "vn").2.secrets r = none) ∧
      accountRefs a = ["n"] :=
  setAuth_success_converges_single_ref twoRefState cleanFaults "acc" "chatgpt" "n" "vn"
    (by decide)
    (by intro a0 h; simp [twoRefState] at h; subst h; rfl)
    (by decide)

theorem uniqueSecretRefs_nodup_foldl (l : List String) :
    ∀ acc : List String, acc.Nodup →
      (l.foldl (fun acc r =>
        if r = "" then acc else if r ∈ acc then acc else acc ++ [r]) acc).Nodup := by
  induction l with
  | nil => intro acc h; exact h
  | cons x xs ih =>
    intro acc h
    simp only [List.foldl_cons]
    by_cases hx : x = ""
    · rw [if_pos hx]; exact ih acc h
    · rw [if_neg hx]
      by_cases hm : x ∈ acc
      · rw [if_pos hm]; exact ih acc h
      · rw [if_neg hm]
        exact ih _ (List.nodup_append.mpr
          ⟨h, List.nodup_singleton x,
           fun a ha hax => hm ((List.mem_singleton.mp hax) ▸ ha)⟩)

theorem uniqueSecretRefs_nodup (l : List String) : (uniqueSecretRefs l).Nodup :=
  uniqueSecretRefs_nodup_foldl l [] List.nodup_nil

theorem remainingSecretRefs_eq (pre rest : List String) (r : String) (hpre : r ∉ pre) :
    remainingSecretRefs (pre ++ r :: rest) r = r :: rest := by
  induction pre with
  | nil => simp [remainingSecretRefs]
  | cons p ps ih =>
    have hpr : ¬p = r := fun hh => hpre (by rw [← hh]; exact List.mem_cons_self p ps)
    simp only [List.cons_append, remainingSecretRefs, if_neg hpr]
    exact ih (fun hm => hpre (List.mem_cons_of_mem _ hm))

theorem restoreFor_id (orig : Account) (rem : List String) :
    (restoreFor orig rem).id = orig.id := by
  rcases rem with _ | ⟨r0, _ | ⟨r1, t⟩⟩ <;> rfl

theorem uniqueSecretRefs_pair (a b : String) (ha : a ≠ "") (hb : b ≠ "") :
    uniqueSecretRefs [a, b] = if b = a then [a] else [a, b] := by
  by_cases hba : b = a
  · rw [if_pos hba, hba]
    exact uniqueSecretRefs_pair_same a ha
  · rw [if_neg hba]
    simp [uniqueSecretRefs, ha, hb, hba]

theorem restoreFor_refs (orig : Account) (rem : List String)
    (hne : rem ≠ []) (hblank : ∀ r ∈ rem, r ≠ "") :
    accountRefs (restoreFor orig rem) ≠ [] ∧
    ∀ r ∈ accountRefs (restoreFor orig rem), r ∈ rem := by
  match rem with
  | [] => exact absurd rfl hne
  | [r0] =>
    have h0 : r0 ≠ "" := hblank r0 (List.mem_singleton_self r0)
    have hrefs : accountRefs (restoreFor orig [r0]) = [r0] := by
      show uniqueSecretRefs [r0, r0] = [r0]
      exact uniqueSecretRefs_pair_same r0 h0
    rw [hrefs]
    exact ⟨by simp, by simp⟩
  | r0 :: r1 :: t =>
    have h0 : r0 ≠ "" := hblank r0 (by simp)
    have h1 : r1 ≠ "" := hblank r1 (by simp)
    have hrefs : accountRefs (restoreFor orig (r0 :: r1 :: t)) =
        if r1 = r0 then [r0] else [r0, r1] := by
      show uniqueSecretRefs [r0, r1] = _
      exact uniqueSecretRefs_pair r0 r1 h0 h1
    rw [hrefs]
    by_cases h10 : r1 = r0
    · rw [if_pos h10]
      exact ⟨by simp, by simp⟩
    · rw [if_neg h10]
      refine ⟨by simp, fun x hx => ?_⟩
      rcases List.mem_cons.mp hx with h | h
      · subst h; simp
      · rcases List.mem_singleton.mp h with rfl
        simp

/-- Failure characterization of the deletion loop when the restore save
succeeds and the new key is not among the processed references: the account
repository now holds the restored record for the not-yet-deleted suffix, and
none of the suffix's references were removed from the secret store. -/
theorem setAuthDeleteLoop_error_char (fl : SetAuthFaults) (orig : Account)
    (full : List String) (key : String)
    (hrs : fl.restoreSaveErr = none) (hkey : key ∉ full) :
    ∀ (subrefs pre : List String) (st st' : SagaState) (e : GoErr),
      full = pre ++ subrefs → full.Nodup →
      setAuthDeleteLoop fl orig full key st subrefs = (Except.error e, st') →
      ∃ remaining, remaining ≠ [] ∧ (∀ r ∈ remaining, r ∈ subrefs) ∧
        st'.accounts = updAccount st.accounts (restoreFor orig remaining).id
          (some (restoreFor orig remaining)) ∧
        (∀ r ∈ remaining, r ≠ key → st'.secrets r = st.secrets r) := by
  intro subrefs
  induction subrefs with
  | nil =>
    intro pre st st' e hful hnd h
    simp [setAuthDeleteLoop] at h
  | cons r rest ih =>
    intro pre st st' e hful hnd h
    rw [setAuthDeleteLoop] at h
    by_cases hrk : r = key
    · exfalso
      apply hkey
      rw [hful, ← hrk]
      exact List.mem_append_right _ (List.mem_cons_self r rest)
    · rw [if_neg hrk] at h
      cases hde : fl.deleteErr r with
      | none =>
        rw [hde] at h
        have hful' : full = (pre ++ [r]) ++ rest := by
          rw [hful]; simp
        obtain ⟨remaining, hne, hsub, haccEq, hsecEq⟩ := ih (pre ++ [r]) _ st' e hful' hnd h
        have hrrest : r ∉ rest := by
          have h2 : (r :: rest).Nodup := by
            rw [hful] at hnd
            exact (List.nodup_append.mp hnd).2.1
          exact (List.nodup_cons.mp h2).1
        refine ⟨remaining, hne, fun x hx => List.mem_cons_of_mem _ (hsub x hx), haccEq, ?_⟩
        intro x hx hxk
        rw [hsecEq x hx hxk]
        have hxr : x ≠ r := fun hh => hrrest (hh ▸ hsub x hx)
        simp [updSecret, hxr]
      | some e0 =>
        rw [hde] at h
        have hst : st' =
            (rollbackAfter fl st
              (restoreFor orig (remainingSecretRefs full r)) key).1 :=
          (congrArg Prod.snd h).symm
        have hrpre : r ∉ pre := by
          rw [hful] at hnd
          intro hrp
          exact (List.nodup_append.mp hnd).2.2 hrp (List.mem_cons_self r rest)
        have hrem : remainingSecretRefs full r = r :: rest := by
          rw [hful]
          exact remainingSecretRefs_eq pre rest r hrpre
        rw [hrem] at hst
        refine ⟨r :: rest, by simp, fun x hx => hx, ?_, ?_⟩
        · rw [hst]
          unfold rollbackAfter
          rw [hrs]
          cases hdk : fl.deleteErr key <;> rfl
        · intro x hx hxk
          rw [hst]
          unfold rollbackAfter
          rw [hrs]
          cases hdk : fl.deleteErr key
          · simp [updSecret, hxk]
          · rfl

/-- C2 counterexample.  Run `SetAuth` on an account whose metadata reference
"a" and auth reference "b" are distinct and both live, with only the delete
of "a" failing.  The call fails, and afterwards the account references BOTH
"a" and "b", which are both still live pre-existing secrets — refuting the
claim that at most one live pre-call secret remains referenced. -/
theorem setAuth_deleteFail_two_live_refs_cex :
    (setAuth twoRefState delAFaults "acc" "chatgpt" "n" "vn").1 =
      Except.error (GoErr.wrap "delete previous auth secret" (GoErr.errMsg "boom")) ∧
    ((setAuth twoRefState delAFaults "acc" "chatgpt" "n" "vn").2.accounts "acc").map
      accountRefs = some ["a", "b"] ∧
    (setAuth twoRefState delAFaults "acc" "chatgpt" "n" "vn").2.secrets "a" = some "va" ∧
    (setAuth twoRefState delAFaults "acc" "chatgpt" "n" "vn").2.secrets "b" = some "vb" ∧
    "a" ≠ "b" := by decide

/-- C2 (amended).  For every `SetAuth` call that fails while deleting a
previous secret reference (all earlier steps succeeded), provided the restore
save succeeds and the new key is none of the previous references: the account
afterwards references only previous references that are still live in the
store — at least one, and possibly both when the account carried two — and it
never references the new key. -/
theorem setAuth_deleteFail_references_live_previous
    (st : SagaState) (fl : SetAuthFaults) (id method key value : String) (e : GoErr)
    (hget : fl.getErr = none) (hput : fl.putErr = none) (hsave : fl.saveErr = none)
    (hrs : fl.restoreSaveErr = none)
    (hwf : ∀ a0, st.accounts id = some a0 → a0.id = id)
    (hfresh : key ∉ previousRefsOf st id)
    (hlive : ∀ r, r ∈ previousRefsOf st id → st.secrets r ≠ none)
    (herr : (setAuth st fl id method key value).1 = Except.error e) :
    ∃ a, (setAuth st fl id method key value).2.accounts id = some a ∧
      accountRefs a ≠ [] ∧
      (∀ r, r ∈ accountRefs a → r ∈ previousRefsOf st id ∧
        (setAuth st fl id method key value).2.secrets r = st.secrets r ∧
        (setAuth st fl id method key value).2.secrets r ≠ none) ∧
      key ∉ accountRefs a := by
  have heq : setAuth st fl id method key value =
      setAuthDeleteLoop fl (loadOrSynth st id) (previousRefsOf st id) key
        (setAuthSavedState st id method key value) (previousRefsOf st id) := by
    unfold setAuth; rw [hget, hput, hsave]
  rw [heq] at herr ⊢
  have hloop : setAuthDeleteLoop fl (loadOrSynth st id) (previousRefsOf st id) key
      (setAuthSavedState st id method key value) (previousRefsOf st id) =
      (Except.error e, (setAuthDeleteLoop fl (loadOrSynth st id) (previousRefsOf st id) key
        (setAuthSavedState st id method key value) (previousRefsOf st id)).2) := by
    have heta : setAuthDeleteLoop fl (loadOrSynth st id) (previousRefsOf st id) key
        (setAuthSavedState st id method key value) (previousRefsOf st id) =
        ((setAuthDeleteLoop fl (loadOrSynth st id) (previousRefsOf st id) key
          (setAuthSavedState st id method key value) (previousRefsOf st id)).1,
         (setAuthDeleteLoop fl (loadOrSynth st id) (previousRefsOf st id) key
          (setAuthSavedState st id method key value) (previousRefsOf st id)).2) := rfl
    rw [heta, herr]
  obtain ⟨remaining, hne, hsub, haccEq, hsecEq⟩ :=
    setAuthDeleteLoop_error_char fl (loadOrSynth st id) (previousRefsOf st id) key hrs hfresh
      (previousRefsOf st id) [] (setAuthSavedState st id method key value) _ e rfl
      (uniqueSecretRefs_nodup _) hloop
  have hblank : ∀ r ∈ remaining, r ≠ "" := by
    intro r hr
    exact (mem_uniqueSecretRefs (hsub r hr)).2
  obtain ⟨hrne, hrsub⟩ := restoreFor_refs (loadOrSynth st id) remaining hne hblank
  refine ⟨restoreFor (loadOrSynth st id) remaining, ?_, hrne, ?_, ?_⟩
  · rw [haccEq]
    have hid : (restoreFor (loadOrSynth st id) remaining).id = id := by
      rw [restoreFor_id]
      exact loadOrSynth_id st id hwf
    simp [updAccount, hid]
  · intro r hr
    have hrrem : r ∈ remaining := hrsub r hr
    have hrfull : r ∈ previousRefsOf st id := hsub r hrrem
    have hrk : r ≠ key := fun hh => hfresh (hh ▸ hrfull)
    have hsaved : (setAuthSavedState st id method key value).secrets r = st.secrets r := by
      simp [setAuthSavedState, setAuthPutState, updSecret, hrk]
    refine ⟨hrfull, ?_, ?_⟩
    · rw [hsecEq r hrrem hrk, hsaved]
    · rw [hsecEq r hrrem hrk, hsaved]
      exact hlive r hrfull
  · intro hkmem
    exact hfresh (hsub _ (hrsub _ hkmem))

/-- C2 witness: the two-reference account with only the delete of "b" failing
("a" is deleted first and succeeds): afterwards the account references
exactly the still-live previous reference "b". -/
theorem setAuth_deleteFail_references_live_previous_witness :
    ∃ a, (setAuth twoRefState
        { cleanFaults with
          deleteErr := fun k => if k = "b" then some (GoErr.errMsg "boomB") else none }
        "acc" "chatgpt" "n" "vn").2.accounts "acc" = some a ∧
      accountRefs a ≠ [] ∧
      (∀ r, r ∈ accountRefs a → r ∈ previousRefsOf twoRefState "acc" ∧
        (setAuth twoRefState
          { cleanFaults with
            deleteErr := fun k => if k = "b" then some (GoErr.errMsg "boomB") else none }
          "acc" "chatgpt" "n" "vn").2.secrets r = twoRefState.secrets r ∧
        (setAuth twoRefState
          { cleanFaults with
            deleteErr := fun k => if k = "b" then some (GoErr.errMsg "boomB") else none }
          "acc" "chatgpt" "n" "vn").2.secrets r ≠ none) ∧
      "n" ∉ accountRefs a :=
  setAuth_deleteFail_references_live_previous twoRefState
    { cleanFaults with
      deleteErr := fun k => if k = "b" then some (GoErr.errMsg "boomB") else none }
    "acc" "chatgpt" "n" "vn"
    (GoErr.wrap "delete previous auth secret" (GoErr.errMsg "boomB"))
    rfl rfl rfl rfl
    (by intro a0 h; simp [twoRefState] at h; subst h; rfl)
    (by decide) (by decide) (by decide)

/-- C3 counterexample.  When the repository save fails and the compensating
delete of the just-written secret "n" also fails, the store RETAINS "n" —
refuting the claim's unconditional "the newly written secret is deleted".
The returned error does join the save error with the compensation error. -/
theorem setAuth_saveFail_orphan_cex :
    (setAuth twoRefState saveAndDelFaults "acc" "chatgpt" "n" "vn").1 =
      Except.error (GoErr.wrap "save account auth and rollback stored secret"
        (GoErr.join (GoErr.errMsg "savefail") (GoErr.errMsg "delfail"))) ∧
    (setAuth twoRefState saveAndDelFaults "acc" "chatgpt" "n" "vn").2.secrets "n" =
      some "vn" := by decide

/-- C3 (amended).  For every `SetAuth` call where the repository save fails
after the new secret was written: the account repository is untouched (so a
pre-existing record is unchanged), no other secret is touched, the
compensating delete of the new key is attempted — when it succeeds the store
no longer contains `newKey` and the save error is returned; when it fails the
store retains `newKey` and the returned error joins the save error with the
compensation error. -/
theorem setAuth_saveFail_compensation
    (st : SagaState) (fl : SetAuthFaults) (id method key value : String) (e : GoErr)
    (hget : fl.getErr = none) (hput : fl.putErr = none) (hsaveE : fl.saveErr = some e) :
    (setAuth st fl id method key value).2.accounts = st.accounts ∧
    (∀ k, k ≠ key → (setAuth st fl id method key value).2.secrets k = st.secrets k) ∧
    (fl.deleteErr key = none →
      (setAuth st fl id method key value).2.secrets key = none ∧
      (setAuth st fl id method key value).1 =
        Except.error (GoErr.wrap "save account auth" e)) ∧
    (∀ ce, fl.deleteErr key = some ce →
      (setAuth st fl id method key value).2.secrets key = some value ∧
      (setAuth st fl id method key value).1 =
        Except.error (GoErr.wrap "save account auth and rollback stored secret"
          (GoErr.join e ce))) := by
  unfold setAuth
  rw [hget, hput, hsaveE]
  refine ⟨?_, ?_, ?_, ?_⟩
  · cases hdk : fl.deleteErr key <;> rfl
  · intro k hk
    cases hdk : fl.deleteErr key <;> simp [setAuthPutState, updSecret, hk]
  · intro hdk
    rw [hdk]
    exact ⟨by simp [setAuthPutState, updSecret], rfl⟩
  · intro ce hdk
    rw [hdk]
    exact ⟨by simp [setAuthPutState, updSecret], rfl⟩

/-- C3 witness: save fails with a successful compensation delete — "n" is
absent afterwards and the save error alone is surfaced. -/
theorem setAuth_saveFail_compensation_witness :
    (setAuth twoRefState { cleanFaults with saveErr := some (GoErr.errMsg "savefail") }
      "acc" "chatgpt" "n" "vn").2.accounts = twoRefState.accounts ∧
    (∀ k, k ≠ "n" →
      (setAuth twoRefState { cleanFaults with saveErr := some (GoErr.errMsg "savefail") }
        "acc" "chatgpt" "n" "vn").2.secrets k = twoRefState.secrets k) ∧
    ({ cleanFaults with saveErr := some (GoErr.errMsg "savefail") }.deleteErr "n" = none →
      (setAuth twoRefState { cleanFaults with saveErr := some (GoErr.errMsg "savefail") }
        "acc" "chatgpt" "n" "vn").2.secrets "n" = none ∧
      (setAuth twoRefState { cleanFaults with saveErr := some (GoErr.errMsg "savefail") }
        "acc" "chatgpt" "n" "vn").1 =
        Except.error (GoErr.wrap "save account auth" (GoErr.errMsg "savefail"))) ∧
    (∀ ce, { cleanFaults with saveErr := some (GoErr.errMsg "savefail") }.deleteErr "n" = some ce →
      (setAuth twoRefState { cleanFaults with saveErr := some (GoErr.errMsg "savefail") }
        "acc" "chatgpt" "n" "vn").2.secrets "n" = some "vn" ∧
      (setAuth twoRefState { cleanFaults with saveErr := some (GoErr.errMsg "savefail") }
        "acc" "chatgpt" "n" "vn").1 =
        Except.error (GoErr.wrap "save account auth and rollback stored secret"
          (GoErr.join (GoErr.errMsg "savefail") ce))) :=
  setAuth_saveFail_compensation twoRefState
    { cleanFaults with saveErr := some (GoErr.errMsg "savefail") }
    "acc" "chatgpt" "n" "vn" (GoErr.errMsg "savefail") rfl rfl rfl

/-- C6.  For every Get, Put or Delete on the secret store chain: a primary
success is returned without touching the fallback (the call trace holds the
primary call only); a primary cancellation/deadline error is returned as-is
without attempting the fallback; any other primary error retries the same
operation on the fallback, whose success is returned, and whose failure
yields the combined error naming both backends' failures. -/
theorem chain_store_fallback_policy :
    (∀ (p f : SecretBackend) (key v : String), p.getR key = Except.ok v →
      chainGet p f key = (Except.ok v, [StoreCall.getC BackendTag.primary key])) ∧
    (∀ (p f : SecretBackend) (key : String) (e : SecErr),
      p.getR key = Except.error e → shouldSkipFallback e = true →
      chainGet p f key =
        (Except.error (ChainErr.primaryOnly e), [StoreCall.getC BackendTag.primary key])) ∧
    (∀ (p f : SecretBackend) (key v : String) (e : SecErr),
      p.getR key = Except.error e → shouldSkipFallback e = false →
      f.getR key = Except.ok v →
      chainGet p f key = (Except.ok v,
        [StoreCall.getC BackendTag.primary key, StoreCall.getC BackendTag.fallback key])) ∧
    (∀ (p f : SecretBackend) (key : String) (e fe : SecErr),
      p.getR key = Except.error e → shouldSkipFallback e = false →
      f.getR key = Except.error fe →
      chainGet p f key = (Except.error (ChainErr.bothFailed "get" e fe),
        [StoreCall.getC BackendTag.primary key, StoreCall.getC BackendTag.fallback key])) ∧
    (∀ (p f : SecretBackend) (key value : String), p.putR key value = none →
      chainPut p f key value = (none, [StoreCall.putC BackendTag.primary key value])) ∧
    (∀ (p f : SecretBackend) (key value : String) (e : SecErr),
      p.putR key value = some e → shouldSkipFallback e = true →
      chainPut p f key value =
        (some (ChainErr.primaryOnly e), [StoreCall.putC BackendTag.primary key value])) ∧
    (∀ (p f : SecretBackend) (key value : String) (e : SecErr),
      p.putR key value = some e → shouldSkipFallback e = false →
      f.putR key value = none →
      chainPut p f key value = (none,
        [StoreCall.putC BackendTag.primary key value,
         StoreCall.putC BackendTag.fallback key value])) ∧
    (∀ (p f : SecretBackend) (key value : String) (e fe : SecErr),
      p.putR key value = some e → shouldSkipFallback e = false →
      f.putR key value = some fe →
      chainPut p f key value = (some (ChainErr.bothFailed "put" e fe),
        [StoreCall.putC BackendTag.primary key value,
         StoreCall.putC BackendTag.fallback key value])) ∧
    (∀ (p f : SecretBackend) (key : String), p.deleteR key = none →
      chainDelete p f key = (none, [StoreCall.deleteC BackendTag.primary key])) ∧
    (∀ (p f : SecretBackend) (key : String) (e : SecErr),
      p.deleteR key = some e → shouldSkipFallback e = true →
      chainDelete p f key =
        (some (ChainErr.primaryOnly e), [StoreCall.deleteC BackendTag.primary key])) ∧
    (∀ (p f : SecretBackend) (key : String) (e : SecErr),
      p.deleteR key = some e → shouldSkipFallback e = false →
      f.deleteR key = none →
      chainDelete p f key = (none,
        [StoreCall.deleteC BackendTag.primary key,
         StoreCall.deleteC BackendTag.fallback key])) ∧
    (∀ (p f : SecretBackend) (key : String) (e fe : SecErr),
      p.deleteR key = some e → shouldSkipFallback e = false →
      f.deleteR key = some fe →
      chainDelete p f key = (some (ChainErr.bothFailed "delete" e fe),
        [StoreCall.deleteC BackendTag.primary key,
         StoreCall.deleteC BackendTag.fallback key])) := by
  refine ⟨?_, ?_, ?_, ?_, ?_, ?_, ?_, ?_, ?_, ?_, ?_, ?_⟩
  · intro p f key v h; simp [chainGet, h]
  · intro p f key e h hs; simp [chainGet, h, hs]
  · intro p f key v e h hs hf; simp [chainGet, h, hs, hf]
  · intro p f key e fe h hs hf; simp [chainGet, h, hs, hf]
  · intro p f key value h; simp [chainPut, h]
  · intro p f key value e h hs; simp [chainPut, h, hs]
  · intro p f key value e h hs hf; simp [chainPut, h, hs, hf]
  · intro p f key value e fe h hs hf; simp [chainPut, h, hs, hf]
  · intro p f key h; simp [chainDelete, h]
  · intro p f key e h hs; simp [chainDelete, h, hs]
  · intro p f key e h hs hf; simp [chainDelete, h, hs, hf]
  · intro p f key e fe h hs hf; simp [chainDelete, h, hs, hf]

/-- C6 witness: the policy instantiated on concrete backends — a healthy
primary is used alone, a cancelled primary short-circuits, a down primary
falls back, and two down backends yield the combined error. -/
theorem chain_store_fallback_policy_witness :
    chainGet okBackend downBackend "k" =
      (Except.ok "v-k", [StoreCall.getC BackendTag.primary "k"]) ∧
    chainPut cancelBackend okBackend "k" "v" =
      (some (ChainErr.primaryOnly SecErr.canceled),
       [StoreCall.putC BackendTag.primary "k" "v"]) ∧
    chainPut downBackend okBackend "k" "v" =
      (none,
       [StoreCall.putC BackendTag.primary "k" "v",
        StoreCall.putC BackendTag.fallback "k" "v"]) ∧
    chainDelete downBackend downBackend "k" =
      (some (ChainErr.bothFailed "delete" (SecErr.failure "down") (SecErr.failure "down")),
       [StoreCall.deleteC BackendTag.primary "k",
        StoreCall.deleteC BackendTag.fallback "k"]) :=
  ⟨chain_store_fallback_policy.1 okBackend downBackend "k" "v-k" rfl,
   chain_store_fallback_policy.2.2.2.2.2.1 cancelBackend okBackend "k" "v"
     SecErr.canceled rfl rfl,
   chain_store_fallback_policy.2.2.2.2.2.2.1 downBackend okBackend "k" "v"
     (SecErr.failure "down") rfl rfl rfl,
   chain_store_fallback_policy.2.2.2.2.2.2.2.2.2.2.2 downBackend downBackend "k"
     (SecErr.failure "down") (SecErr.failure "down") rfl rfl rfl⟩

theorem char_eq_of_toNat_eq {a b : Char} (h : a.toNat = b.toNat) : a = b :=
  Char.eq_of_val_eq (UInt32.toNat.inj h)

theorem lexLtB_trichotomy : ∀ s t : List Char,
    lexLtB s t = true ∨ s = t ∨ lexLtB t s = true := by
  intro s
  induction s with
  | nil =>
    intro t
    cases t with
    | nil => exact Or.inr (Or.inl rfl)
    | cons b bs => exact Or.inl rfl
  | cons a as ih =>
    intro t
    cases t with
    | nil => exact Or.inr (Or.inr rfl)
    | cons b bs =>
      rcases Nat.lt_trichotomy a.toNat b.toNat with hlt | heq | hgt
      · left; simp [lexLtB, hlt]
      · have hab : a = b := char_eq_of_toNat_eq heq
        subst hab
        rcases ih bs with h1 | h2 | h3
        · left; simp [lexLtB, h1]
        · right; left; rw [h2]
        · right; right; simp [lexLtB, h3]
      · right; right; simp [lexLtB, hgt]

theorem lexLtB_trans : ∀ s t u : List Char,
    lexLtB s t = true → lexLtB t u = true → lexLtB s u = true := by
  intro s
  induction s with
  | nil =>
    intro t u hst htu
    cases t with
    | nil => cases hst
    | cons b bs =>
      cases u with
      | nil => cases htu
      | cons c cs => rfl
  | cons a as ih =>
    intro t u hst htu
    cases t with
    | nil => cases hst
    | cons b bs =>
      cases u with
      | nil => cases htu
      | cons c cs =>
        by_cases hab : a.toNat < b.toNat
        · by_cases hbc : b.toNat < c.toNat
          · have hac : a.toNat < c.toNat := Nat.lt_trans hab hbc
            simp [lexLtB, hac]
          · by_cases hcb : c.toNat < b.toNat
            · simp [lexLtB, hbc, hcb] at htu
            · have hbceq : b.toNat = c.toNat := by omega
              have hac : a.toNat < c.toNat := by omega
              simp [lexLtB, hac]
        · by_cases hba : b.toNat < a.toNat
          · simp [lexLtB, hab, hba] at hst
          · have habeq : a.toNat = b.toNat := by omega
            have hst' : lexLtB as bs = true := by
              simpa [lexLtB, hab, hba] using hst
            by_cases hbc : b.toNat < c.toNat
            · have hac : a.toNat < c.toNat := by omega
              simp [lexLtB, hac]
            · by_cases hcb : c.toNat < b.toNat
              · simp [lexLtB, hbc, hcb] at htu
              · have htu' : lexLtB bs cs = true := by
                  simpa [lexLtB, hbc, hcb] using htu
                have hax : ¬a.toNat < c.toNat := by omega
                have hca : ¬c.toNat < a.toNat := by omega
                simp only [lexLtB, if_neg hax, if_neg hca]
                exact ih bs cs hst' htu'

theorem string_eq_of_data_eq {s t : String} (h : s.data = t.data) : s = t := by
  cases s; cases t; simp_all

theorem pickLe_total : ∀ a b : Account, pickLe a b ∨ pickLe b a := by
  intro a b
  rcases lt_trichotomy (weeklyPercent a) (weeklyPercent b) with h | h | h
  · exact Or.inl (Or.inl h)
  · rcases lexLtB_trichotomy a.id.data b.id.data with h1 | h2 | h3
    · exact Or.inl (Or.inr ⟨h, Or.inl h1⟩)
    · exact Or.inl (Or.inr ⟨h, Or.inr (string_eq_of_data_eq h2)⟩)
    · exact Or.inr (Or.inr ⟨h.symm, Or.inl h3⟩)
  · exact Or.inr (Or.inl h)

theorem pickLe_trans : ∀ a b c : Account, pickLe a b → pickLe b c → pickLe a c := by
  intro a b c hab hbc
  rcases hab with h1 | ⟨he1, hs1⟩
  · rcases hbc with h2 | ⟨he2, _⟩
    · exact Or.inl (lt_trans h1 h2)
    · exact Or.inl (he2 ▸ h1)
  · rcases hbc with h2 | ⟨he2, hs2⟩
    · exact Or.inl (he1 ▸ h2)
    · refine Or.inr ⟨he1.trans he2, ?_⟩
      rcases hs1 with hl1 | heq1
      · rcases hs2 with hl2 | heq2
        · exact Or.inl (lexLtB_trans _ _ _ hl1 hl2)
        · exact Or.inl (by rw [← heq2]; exact hl1)
      · rcases hs2 with hl2 | heq2
        · exact Or.inl (by rw [heq1]; exact hl2)
        · exact Or.inr (heq1.trans heq2)

theorem pickCandidates_weekly_ok (pool : Pool) (accounts : List Account) (a : Account)
    (ha : a ∈ pickCandidates pool accounts) :
    ∀ w, a.limits.weekly = some w → w.percent < 100 := by
  obtain ⟨member, _, hf⟩ := List.mem_filterMap.mp ha
  intro w hw
  split at hf
  · cases hf
  · split at hf
    · cases hf
    · split at hf
      · split at hf
        · cases hf
        · rename_i hweek hnot
          cases hf
          rw [hw] at hweek
          cases hweek
          exact lt_of_not_le hnot
      · rename_i hweek
        cases hf
        rw [hw] at hweek
        cases hweek

/-- C4.  Whenever `PickAccount` succeeds, the returned pick-then-failover
sequence is exactly the ID sequence of a permutation of the eligible
candidates (members matching the pool's provider), sorted ascending by
weekly-used percent — absent snapshots sorting as 0 — with ties broken by
lexical account ID; every returned account has weekly percent < 100.  On the
spec's {100, 30, 10} example it picks the 10% account with the 30% account as
the only failover. -/
theorem pickAccount_sorted_eligible :
    (∀ (pool : Pool) (accounts : List Account) (p : String) (fo : List String),
      pickAccount pool accounts = Except.ok (p, fo) →
      ∃ l : List Account, l ≠ [] ∧ p :: fo = l.map (fun a => a.id) ∧
        List.Perm l (pickCandidates pool accounts) ∧
        List.Sorted pickLe l ∧
        (∀ a ∈ l, ∀ w, a.limits.weekly = some w → w.percent < 100)) ∧
    pickAccount examplePool exampleAccounts = Except.ok ("3", ["2"]) := by
  constructor
  · intro pool accounts p fo hok
    unfold pickAccount at hok
    split at hok
    · cases hok
    · cases hsort : List.insertionSort pickLe (pickCandidates pool accounts) with
      | nil => rw [hsort] at hok; cases hok
      | cons first rest =>
        rw [hsort] at hok
        have hperm : List.Perm (first :: rest) (pickCandidates pool accounts) := by
          rw [← hsort]
          exact List.perm_insertionSort pickLe _
        simp only [Except.ok.injEq, Prod.mk.injEq] at hok
        obtain ⟨hp, hfo⟩ := hok
        refine ⟨first :: rest, by simp, ?_, hperm, ?_, ?_⟩
        · rw [← hp, ← hfo]
          rfl
        · rw [← hsort]
          haveI : IsTotal Account pickLe := ⟨pickLe_total⟩
          haveI : IsTrans Account pickLe := ⟨fun a b c => pickLe_trans a b c⟩
          exact List.sorted_insertionSort pickLe _
        · intro a ha
          exact pickCandidates_weekly_ok pool accounts a ((List.Perm.mem_iff hperm).mp ha)
  · decide

/-- C4 witness: the universally quantified part instantiated on the spec's
{100, 30, 10} example — the returned sequence ["3", "2"] is the sorted,
exhausted-free candidate list. -/
theorem pickAccount_sorted_eligible_witness :
    ∃ l : List Account, l ≠ [] ∧ "3" :: ["2"] = l.map (fun a => a.id) ∧
      List.Perm l (pickCandidates examplePool exampleAccounts) ∧
      List.Sorted pickLe l ∧
      (∀ a ∈ l, ∀ w, a.limits.weekly = some w → w.percent < 100) :=
  pickAccount_sorted_eligible.1 examplePool exampleAccounts "3" ["2"]
    pickAccount_sorted_eligible.2

/-- C5.  Contrary to the claim — and to the repository's own test
`TestPoolServicePickAccountFailsWhenPoolIsInactive`, which requires
`domain.ErrPoolInactive` here — `PickAccount` never consults `Pool.Active`:
on the test's inactive pool with one eligible member it succeeds and returns
that member.  The "no eligible accounts" half of the claim does hold: an
active pool whose only member is weekly-exhausted fails with that error. -/
theorem pickAccount_ignores_inactive_flag :
    inactivePool.active = false ∧
    pickAccount inactivePool inactiveAccounts = Except.ok ("1", []) ∧
    pickAccount exhaustedPool exhaustedAccounts =
      Except.error (PickErr.noEligible "default-openai") := by decide

theorem alookup_aupsert_self {α : Type} (m : List (String × α)) (k : String) (v : α) :
    alookup (aupsert m k v) k = some v := by
  induction m with
  | nil => simp [aupsert, alookup]
  | cons kv rest ih =>
    obtain ⟨k0, v0⟩ := kv
    by_cases hk : k0 = k
    · subst hk
      simp [aupsert, alookup]
    · simp [aupsert, alookup, hk, ih]

theorem mem_trimChars_ne_nil (l : List Char) (c : Char)
    (hc : c ∈ l) (hsp : isGoSpace c = false) : trimChars l ≠ [] := by
  intro h
  unfold trimChars at h
  rw [List.reverse_eq_nil_iff] at h
  rw [List.dropWhile_eq_nil_iff] at h
  have hall : ∀ x ∈ l.dropWhile isGoSpace, isGoSpace x = true := by
    intro x hx
    exact h x (List.mem_reverse.mpr hx)
  rcases List.mem_append.mp
      (by rw [List.takeWhile_append_dropWhile (p := isGoSpace)]; exact hc :
        c ∈ l.takeWhile isGoSpace ++ l.dropWhile isGoSpace) with h1 | h2
  · rw [List.mem_takeWhile_imp h1] at hsp
    cases hsp
  · rw [hall c h2] at hsp
    cases hsp

theorem goTrimSpace_colon_ne (lsid acc : String) :
    goTrimSpace (lsid ++ ":" ++ acc) ≠ "" := by
  intro h
  have hdata : trimChars (lsid ++ ":" ++ acc).data = [] := congrArg String.data h
  have hcolon : (':' : Char) ∈ (lsid ++ ":" ++ acc).data := by
    rw [String.data_append, String.data_append]
    exact List.mem_append.mpr (Or.inl (List.mem_append.mpr (Or.inr (by simp))))
  exact mem_trimChars_ne_nil _ ':' hcolon (by decide) hdata

/-- The branch of `GetOrAttachAccountSession` that finds an existing
non-blank provider session id: returned unchanged, nothing persisted. -/
theorem getOrAttach_existing (rt : RuntimeMap) (fl : ContinuityFaults) (now : GoTime)
    (poolID lsid acc sid : String)
    (hget : fl.getErr = none)
    (hpair : pairLookup rt poolID lsid acc = some sid)
    (htrim : goTrimSpace sid ≠ "") :
    getOrAttachAccountSession rt fl now poolID lsid acc = (Except.ok (sid, false), rt) := by
  cases hrt : rt poolID with
  | none =>
    unfold pairLookup at hpair
    rw [hrt] at hpair
    cases hpair
  | some runtime =>
    unfold pairLookup at hpair
    simp only [hrt] at hpair
    cases hled : alookup runtime.sessions lsid with
    | none => simp only [hled] at hpair; cases hpair
    | some ledger =>
      simp only [hled] at hpair
      have hload : loadRuntime rt fl poolID = Except.ok runtime := by
        unfold loadRuntime
        rw [hget, hrt]
      unfold getOrAttachAccountSession
      rw [hload]
      simp only [hled, Option.getD_some]
      by_cases hl : ledger.logicalSessionID = ""
      · simp [hl, hpair, htrim]
      · simp [hl, hpair, htrim]

theorem attachNewSession_ok (rt : RuntimeMap) (fl : ContinuityFaults) (now : GoTime)
    (lsid acc : String) (runtime : PoolRuntime) (ledger : SessionLedger)
    (hsave : fl.saveErr = none) :
    attachNewSession rt fl now lsid acc runtime ledger =
      (Except.ok (lsid ++ ":" ++ acc, true),
       updRuntime rt runtime.poolID (some
         { runtime with
           sessions := aupsert runtime.sessions lsid
             { ledger with
               accountSessions :=
                 aupsert ledger.accountSessions acc (lsid ++ ":" ++ acc) },
           activeAccountID := acc,
           lastSyncedAt := now })) := by
  unfold attachNewSession
  rw [hsave]

theorem attachNewSession_err (rt : RuntimeMap) (fl : ContinuityFaults) (now : GoTime)
    (lsid acc : String) (runtime : PoolRuntime) (ledger : SessionLedger) (e : GoErr)
    (hsaveE : fl.saveErr = some e) :
    attachNewSession rt fl now lsid acc runtime ledger =
      (Except.error (GoErr.wrap "save pool runtime" e), rt) := by
  unfold attachNewSession
  rw [hsaveE]

theorem pairLookup_upd (rt : RuntimeMap) (poolID lsid acc sid : String)
    (r2 : PoolRuntime) (ledger2 : SessionLedger)
    (h1 : alookup r2.sessions lsid = some ledger2)
    (h2 : alookup ledger2.accountSessions acc = some sid) :
    pairLookup (updRuntime rt poolID (some r2)) poolID lsid acc = some sid := by
  unfold pairLookup updRuntime
  simp [h1, h2]

/-- Every successful `GetOrAttachAccountSession` leaves the pair mapped, in
the resulting repository state, to exactly the returned id, which trims to a
non-blank string. -/
theorem getOrAttach_ok_pair (rt : RuntimeMap) (fl : ContinuityFaults) (now : GoTime)
    (poolID lsid acc sid : String) (b : Bool)
    (hwf : ∀ r0, rt poolID = some r0 → r0.poolID = poolID)
    (hok : (getOrAttachAccountSession rt fl now poolID lsid acc).1 = Except.ok (sid, b)) :
    pairLookup (getOrAttachAccountSession rt fl now poolID lsid acc).2 poolID lsid acc =
      some sid ∧ goTrimSpace sid ≠ "" := by
  cases hget : fl.getErr with
  | some e =>
    have herr : (getOrAttachAccountSession rt fl now poolID lsid acc).1 =
        Except.error e := by
      unfold getOrAttachAccountSession loadRuntime
      rw [hget]
    rw [herr] at hok
    cases hok
  | none =>
  cases hrt : rt poolID with
  | none =>
    have hstep : getOrAttachAccountSession rt fl now poolID lsid acc =
        attachNewSession rt fl now lsid acc
          { poolID := poolID, activeAccountID := "", lastSyncedAt := none, sessions := [] }
          { zeroLedger with logicalSessionID := lsid } := by
      unfold getOrAttachAccountSession loadRuntime
      rw [hget, hrt]
      rfl
    rw [hstep] at hok ⊢
    cases hsaveE : fl.saveErr with
    | some e =>
      rw [attachNewSession_err rt fl now lsid acc _ _ e hsaveE] at hok
      cases hok
    | none =>
      rw [attachNewSession_ok rt fl now lsid acc _ _ hsaveE] at hok ⊢
      simp only [Except.ok.injEq, Prod.mk.injEq] at hok
      obtain ⟨hsid, _⟩ := hok
      subst hsid
      refine ⟨pairLookup_upd rt poolID lsid acc _ _ _
        (alookup_aupsert_self _ _ _) (alookup_aupsert_self _ _ _),
        goTrimSpace_colon_ne lsid acc⟩
  | some runtime =>
    have hpid : runtime.poolID = poolID := hwf runtime hrt
    have hload : loadRuntime rt fl poolID = Except.ok runtime := by
      unfold loadRuntime
      rw [hget, hrt]
    cases hled : alookup runtime.sessions lsid with
    | none =>
      have hstep : getOrAttachAccountSession rt fl now poolID lsid acc =
          attachNewSession rt fl now lsid acc runtime
            { zeroLedger with logicalSessionID := lsid } := by
        unfold getOrAttachAccountSession
        rw [hload]
        simp only [hled, Option.getD_none]
        rfl
      rw [hstep] at hok ⊢
      cases hsaveE : fl.saveErr with
      | some e =>
        rw [attachNewSession_err rt fl now lsid acc _ _ e hsaveE] at hok
        cases hok
      | none =>
        rw [attachNewSession_ok rt fl now lsid acc _ _ hsaveE] at hok ⊢
        simp only [Except.ok.injEq, Prod.mk.injEq] at hok
        obtain ⟨hsid, _⟩ := hok
        subst hsid
        rw [hpid]
        refine ⟨pairLookup_upd rt poolID lsid acc _ _ _
          (alookup_aupsert_self _ _ _) (alookup_aupsert_self _ _ _),
          goTrimSpace_colon_ne lsid acc⟩
    | some ledger =>
      cases hacc : alookup ledger.accountSessions acc with
      | none =>
        have hstep : getOrAttachAccountSession rt fl now poolID lsid acc =
            attachNewSession rt fl now lsid acc runtime
              (if ledger.logicalSessionID = "" then
                { ledger with logicalSessionID := lsid }
               else ledger) := by
          unfold getOrAttachAccountSession
          rw [hload]
          simp only [hled, Option.getD_some]
          by_cases hl2 : ledger.logicalSessionID = ""
          · simp only [if_pos hl2]
            have hacc2 : alookup ({ ledger with logicalSessionID := lsid
              : SessionLedger }).accountSessions acc = none := hacc
            rw [hacc2]
          · simp only [if_neg hl2]
            rw [hacc]
        rw [hstep] at hok ⊢
        cases hsaveE : fl.saveErr with
        | some e =>
          rw [attachNewSession_err rt fl now lsid acc _ _ e hsaveE] at hok
          cases hok
        | none =>
          rw [attachNewSession_ok rt fl now lsid acc _ _ hsaveE] at hok ⊢
          simp only [Except.ok.injEq, Prod.mk.injEq] at hok
          obtain ⟨hsid, _⟩ := hok
          subst hsid
          rw [hpid]
          refine ⟨pairLookup_upd rt poolID lsid acc _ _ _
            (alookup_aupsert_self _ _ _) (alookup_aupsert_self _ _ _),
            goTrimSpace_colon_ne lsid acc⟩
      | some sid0 =>
        by_cases htr : goTrimSpace sid0 ≠ ""
        · have hres : getOrAttachAccountSession rt fl now poolID lsid acc =
              (Except.ok (sid0, false), rt) :=
            getOrAttach_existing rt fl now poolID lsid acc sid0 hget
              (by unfold pairLookup; simp [hrt, hled, hacc]) htr
          rw [hres] at hok ⊢
          simp only [Except.ok.injEq, Prod.mk.injEq] at hok
          obtain ⟨hsid, _⟩ := hok
          subst hsid
          refine ⟨by unfold pairLookup; simp [hrt, hled, hacc], htr⟩
        · have htr2 : goTrimSpace sid0 = "" := not_ne_iff.mp htr
          have hstep : getOrAttachAccountSession rt fl now poolID lsid acc =
              attachNewSession rt fl now lsid acc runtime
                (if ledger.logicalSessionID = "" then
                  { ledger with logicalSessionID := lsid }
                 else ledger) := by
            unfold getOrAttachAccountSession
            rw [hload]
            simp only [hled, Option.getD_some]
            by_cases hl2 : ledger.logicalSessionID = ""
            · simp only [if_pos hl2]
              have hacc2 : alookup ({ ledger with logicalSessionID := lsid
                : SessionLedger }).accountSessions acc = some sid0 := hacc
              rw [hacc2]
              simp [htr2]
            · simp only [if_neg hl2]
              rw [hacc]
              simp [htr2]
          rw [hstep] at hok ⊢
          cases hsaveE : fl.saveErr with
          | some e =>
            rw [attachNewSession_err rt fl now lsid acc _ _ e hsaveE] at hok
            cases hok
          | none =>
            rw [attachNewSession_ok rt fl now lsid acc _ _ hsaveE] at hok ⊢
            simp only [Except.ok.injEq, Prod.mk.injEq] at hok
            obtain ⟨hsid, _⟩ := hok
            subst hsid
            rw [hpid]
            refine ⟨pairLookup_upd rt poolID lsid acc _ _ _
              (alookup_aupsert_self _ _ _) (alookup_aupsert_self _ _ _),
              goTrimSpace_colon_ne lsid acc⟩

/-- The mint path of `GetOrAttachAccountSession`: when the pair has no
non-blank provider session id yet, the deterministically derived id is
recorded, persisted and returned with `bootstrapped = true`. -/
theorem getOrAttach_mint (rt : RuntimeMap) (fl : ContinuityFaults) (now : GoTime)
    (poolID lsid acc : String)
    (hget : fl.getErr = none) (hsave : fl.saveErr = none)
    (hwf : ∀ r0, rt poolID = some r0 → r0.poolID = poolID)
    (hunset : ∀ s, pairLookup rt poolID lsid acc = some s → goTrimSpace s = "") :
    (getOrAttachAccountSession rt fl now poolID lsid acc).1 =
      Except.ok (lsid ++ ":" ++ acc, true) ∧
    pairLookup (getOrAttachAccountSession rt fl now poolID lsid acc).2 poolID lsid acc =
      some (lsid ++ ":" ++ acc) := by
  cases hrt : rt poolID with
  | none =>
    have hstep : getOrAttachAccountSession rt fl now poolID lsid acc =
        attachNewSession rt fl now lsid acc
          { poolID := poolID, activeAccountID := "", lastSyncedAt := none, sessions := [] }
          { zeroLedger with logicalSessionID := lsid } := by
      unfold getOrAttachAccountSession loadRuntime
      rw [hget, hrt]
      rfl
    rw [hstep, attachNewSession_ok rt fl now lsid acc _ _ hsave]
    exact ⟨rfl, pairLookup_upd rt poolID lsid acc _ _ _
      (alookup_aupsert_self _ _ _) (alookup_aupsert_self _ _ _)⟩
  | some runtime =>
    have hpid : runtime.poolID = poolID := hwf runtime hrt
    have hload : loadRuntime rt fl poolID = Except.ok runtime := by
      unfold loadRuntime
      rw [hget, hrt]
    cases hled : alookup runtime.sessions lsid with
    | none =>
      have hstep : getOrAttachAccountSession rt fl now poolID lsid acc =
          attachNewSession rt fl now lsid acc runtime
            { zeroLedger with logicalSessionID := lsid } := by
        unfold getOrAttachAccountSession
        rw [hload]
        simp only [hled, Option.getD_none]
        rfl
      rw [hstep, attachNewSession_ok rt fl now lsid acc _ _ hsave, hpid]
      exact ⟨rfl, pairLookup_upd rt poolID lsid acc _ _ _
        (alookup_aupsert_self _ _ _) (alookup_aupsert_self _ _ _)⟩
    | some ledger =>
      cases hacc : alookup ledger.accountSessions acc with
      | none =>
        have hstep : getOrAttachAccountSession rt fl now poolID lsid acc =
            attachNewSession rt fl now lsid acc runtime
              (if ledger.logicalSessionID = "" then
                { ledger with logicalSessionID := lsid }
               else ledger) := by
          unfold getOrAttachAccountSession
          rw [hload]
          simp only [hled, Option.getD_some]
          by_cases hl2 : ledger.logicalSessionID = ""
          · simp only [if_pos hl2]
            have hacc2 : alookup ({ ledger with logicalSessionID := lsid
              : SessionLedger }).accountSessions acc = none := hacc
            rw [hacc2]
          · simp only [if_neg hl2]
            rw [hacc]
        rw [hstep, attachNewSession_ok rt fl now lsid acc _ _ hsave, hpid]
        exact ⟨rfl, pairLookup_upd rt poolID lsid acc _ _ _
          (alookup_aupsert_self _ _ _) (alookup_aupsert_self _ _ _)⟩
      | some sid0 =>
        have htr2 : goTrimSpace sid0 = "" :=
          hunset sid0 (by unfold pairLookup; simp [hrt, hled, hacc])
        have hstep : getOrAttachAccountSession rt fl now poolID lsid acc =
            attachNewSession rt fl now lsid acc runtime
              (if ledger.logicalSessionID = "" then
                { ledger with logicalSessionID := lsid }
               else ledger) := by
          unfold getOrAttachAccountSession
          rw [hload]
          simp only [hled, Option.getD_some]
          by_cases hl2 : ledger.logicalSessionID = ""
          · simp only [if_pos hl2]
            have hacc2 : alookup ({ ledger with logicalSessionID := lsid
              : SessionLedger }).accountSessions acc = some sid0 := hacc
            rw [hacc2]
            simp [htr2]
          · simp only [if_neg hl2]
            rw [hacc]
            simp [htr2]
        rw [hstep, attachNewSession_ok rt fl now lsid acc _ _ hsave, hpid]
        exact ⟨rfl, pairLookup_upd rt poolID lsid acc _ _ _
          (alookup_aupsert_self _ _ _) (alookup_aupsert_self _ _ _)⟩

/-- C7.  `GetOrAttachAccountSession` is idempotent per
(pool, logicalSessionID, accountID): (i) when the pair has no non-blank
provider session id, the call mints `"<logicalSessionID>:<accountID>"`,
persists it and reports `bootstrapped = true`; (ii) once the pair holds a
non-blank id, any call returns that id unchanged with `bootstrapped = false`
and does not touch the repository — the id is never reassigned; (iii) hence a
second call with the same triple after any successful call returns the same
id with `bootstrapped = false` and leaves the state unchanged.  The
well-formedness hypotheses state that the runtime repository returns records
keyed by their own pool ID, which the repository guarantees by
construction. -/
theorem getOrAttach_idempotent :
    (∀ (rt : RuntimeMap) (fl : ContinuityFaults) (now : GoTime) (poolID lsid acc : String),
      fl.getErr = none → fl.saveErr = none →
      (∀ r0, rt poolID = some r0 → r0.poolID = poolID) →
      (∀ s, pairLookup rt poolID lsid acc = some s → goTrimSpace s = "") →
      (getOrAttachAccountSession rt fl now poolID lsid acc).1 =
        Except.ok (lsid ++ ":" ++ acc, true) ∧
      pairLookup (getOrAttachAccountSession rt fl now poolID lsid acc).2 poolID lsid acc =
        some (lsid ++ ":" ++ acc)) ∧
    (∀ (rt : RuntimeMap) (fl : ContinuityFaults) (now : GoTime) (poolID lsid acc sid : String),
      fl.getErr = none →
      pairLookup rt poolID lsid acc = some sid → goTrimSpace sid ≠ "" →
      getOrAttachAccountSession rt fl now poolID lsid acc = (Except.ok (sid, false), rt)) ∧
    (∀ (rt : RuntimeMap) (fl fl2 : ContinuityFaults) (now now2 : GoTime)
      (poolID lsid acc sid : String) (b : Bool),
      fl2.getErr = none →
      (∀ r0, rt poolID = some r0 → r0.poolID = poolID) →
      (getOrAttachAccountSession rt fl now poolID lsid acc).1 = Except.ok (sid, b) →
      getOrAttachAccountSession (getOrAttachAccountSession rt fl now poolID lsid acc).2
        fl2 now2 poolID lsid acc =
        (Except.ok (sid, false), (getOrAttachAccountSession rt fl now poolID lsid acc).2)) := by
  refine ⟨getOrAttach_mint, getOrAttach_existing, ?_⟩
  intro rt fl fl2 now now2 poolID lsid acc sid b hget2 hwf hok
  obtain ⟨hp, ht⟩ := getOrAttach_ok_pair rt fl now poolID lsid acc sid b hwf hok
  exact getOrAttach_existing _ fl2 now2 poolID lsid acc sid hget2 hp ht

/-- C7 witness: on an empty repository, attaching (pool "p", session "s",
account "a") mints "s:a" with `bootstrapped = true` and records it. -/
theorem getOrAttach_idempotent_witness :
    (getOrAttachAccountSession rtEmpty { getErr := none, saveErr := none } none
      "p" "s" "a").1 = Except.ok ("s" ++ ":" ++ "a", true) ∧
    pairLookup (getOrAttachAccountSession rtEmpty { getErr := none, saveErr := none } none
      "p" "s" "a").2 "p" "s" "a" = some ("s" ++ ":" ++ "a") :=
  getOrAttach_idempotent.1 rtEmpty { getErr := none, saveErr := none } none "p" "s" "a"
    rfl rfl (fun _ h => nomatch h) (fun _ h => nomatch h)

/-- C8 counterexample.  `ResolveLogicalSessionID` trims its inputs before
hashing, so the DIFFERENT workspace roots "/repo/a" and "/repo/a " (trailing
blank) yield the SAME id — refuting "a different workspace root or window
fingerprint yields a different id" as a universal statement. -/
theorem resolve_trim_collision_cex :
    "/repo/a" ≠ "/repo/a " ∧
    resolveLogicalSessionID "/repo/a" "window-1" =
      resolveLogicalSessionID "/repo/a " "window-1" := by
  constructor
  · decide
  · unfold resolveLogicalSessionID
    have h : goTrimSpace "/repo/a " = goTrimSpace "/repo/a" := by decide
    rw [h]

set_option maxRecDepth 1000000 in
/-- C8 (amended).  `ResolveLogicalSessionID` is a deterministic function of
the TRIMMED inputs (equal raw inputs in particular give equal ids), and the
spec's three example ids — ("/repo/a","window-1"), ("/repo/a","window-2"),
("/repo/b","window-1") — are pairwise distinct SHA-1 digests. -/
theorem resolve_deterministic_examples_distinct :
    (∀ w f w2 f2 : String,
      goTrimSpace w = goTrimSpace w2 → goTrimSpace f = goTrimSpace f2 →
      resolveLogicalSessionID w f = resolveLogicalSessionID w2 f2) ∧
    resolveLogicalSessionID "/repo/a" "window-1" ≠
      resolveLogicalSessionID "/repo/a" "window-2" ∧
    resolveLogicalSessionID "/repo/a" "window-1" ≠
      resolveLogicalSessionID "/repo/b" "window-1" ∧
    resolveLogicalSessionID "/repo/a" "window-2" ≠
      resolveLogicalSessionID "/repo/b" "window-1" := by
  refine ⟨?_, by decide, by decide, by decide⟩
  intro w f w2 f2 hw hf
  unfold resolveLogicalSessionID
  rw [hw, hf]

/-- C8 witness: determinism instantiated — the id is insensitive to
surrounding blanks in the workspace root. -/
theorem resolve_deterministic_examples_distinct_witness :
    resolveLogicalSessionID "/repo/a" "window-1" =
      resolveLogicalSessionID " /repo/a " "window-1" :=
  resolve_deterministic_examples_distinct.1 "/repo/a" "window-1" " /repo/a " "window-1"
    (by decide) (by decide)

/-- C10.  For every non-forced `ensureFreshTokens` call where the stored
record has no positive ExpiresAt, the stored tokens are returned unchanged
and no refresh call and no store write happen — whatever the current time. -/
theorem ensureFreshTokens_no_expiry_no_refresh
    (env : TokenEnv) (account : Account) (existing stored : OauthTokens)
    (href : goTrimSpace account.auth.secretRef ≠ "")
    (hget : env.getErr (goTrimSpace account.auth.secretRef) = none)
    (hstored : env.secrets (goTrimSpace account.auth.secretRef) = some stored)
    (haccess : goTrimSpace stored.accessToken ≠ "")
    (hexp : stored.expiresAt ≤ 0) :
    ensureFreshTokens env account existing false = (Except.ok stored, env.secrets, []) := by
  unfold ensureFreshTokens
  rw [if_neg href]
  simp only [hget, hstored]
  rw [if_neg haccess]
  have hte : tokenExpiringSoon stored env.nowNs proactiveRefreshSkewNs = false := by
    unfold tokenExpiringSoon
    rw [if_pos hexp]
  simp [hte]

/-- C10 witness: the stored record without expiry metadata is returned as-is
even when "now" is astronomically late, with no refresh and no write. -/
theorem ensureFreshTokens_no_expiry_no_refresh_witness :
    ensureFreshTokens tokenEnvNoExp tokAccount
      { accessToken := "", refreshToken := "", idToken := "", tokenType := "",
        expiresIn := 0, expiresAt := 0 } false =
      (Except.ok storedNoExp, tokenEnvNoExp.secrets, []) :=
  ensureFreshTokens_no_expiry_no_refresh tokenEnvNoExp tokAccount
    { accessToken := "", refreshToken := "", idToken := "", tokenType := "",
      expiresIn := 0, expiresAt := 0 } storedNoExp
    (by decide) rfl (by decide) (by decide) (by decide)

end Oa
